import Mathlib

/-!
Verification of the local-first transaction synchronization core of the
`transaction-tracker` repository.

The development shallowly embeds the synchronization subsystem:

* `src/lib/db.ts` — the IndexedDB local store (`LocalTx`, `LocalDB` and the
  CRUD / query operations on them);
* `src/services/transactionService.ts` — the push/pull reconciliation
  protocol against the remote Supabase table (`syncToSupabase`,
  `pullFromSupabase`, `updateLocalTransaction`, `deleteLocalTransaction`);
* `src/services/syncManager.ts` — the singleton sync coordinator
  (busy flag, initial / manual / timer / online-event triggers);
* `src/lib/dateUtils.ts` — the local-date parsing and formatting helpers.

JavaScript strings are modelled by `String` compared code-unit-wise
(`charListLt` below, which is the comparison used by both the `<` operator
and IndexedDB string key order); `crypto.randomUUID()` and the
server-assigned row ids are modelled by freshness counters; the remote
Supabase client is modelled by a deterministic store together with an
environment of injectable per-call failures (mirroring that the client
surfaces errors as values, not exceptions).
-/

deriving instance DecidableEq for Except

namespace TxTracker

/-! ## JavaScript string primitives -/

/-- Decimal digit character, as produced by JavaScript number-to-string
conversion (`'0'` has code unit 48). -/
def digitChar (n : Nat) : Char := Char.ofNat (48 + n)

/-- JavaScript string comparison (the `<` operator on strings, which is also
the IndexedDB key order on string keys): lexicographic comparison of the
code-unit sequences. -/
def charListLt : List Char → List Char → Bool
  | [], [] => false
  | [], _ :: _ => true
  | _ :: _, [] => false
  | a :: as, b :: bs =>
    if a.toNat < b.toNat then true
    else if b.toNat < a.toNat then false
    else charListLt as bs

/-- `a ≤ b` in JavaScript string / IndexedDB string key order. -/
def strLe (a b : String) : Bool := ! charListLt b.data a.data

/-- Auxiliary fuel-based computation of the decimal digit characters of a
natural number, most significant digit first. -/
def natToDigitsAux : Nat → Nat → List Char
  | 0, _ => []
  | fuel + 1, n =>
    if n < 10 then [digitChar n]
    else natToDigitsAux fuel (n / 10) ++ [digitChar (n % 10)]

/-- The decimal digit characters of `n`: models JavaScript `String(n)`
(equivalently a template literal placeholder) for a natural number. -/
def natDigits (n : Nat) : List Char := natToDigitsAux (n + 1) n

/-- JavaScript `String.prototype.padStart(w, c)` on the code-unit list. -/
def padStart (w : Nat) (c : Char) (l : List Char) : List Char :=
  List.replicate (w - l.length) c ++ l

/-- `String(n).padStart(2, '0')`. -/
def pad2 (n : Nat) : List Char := padStart 2 '0' (natDigits n)

/-! ## Local store (src/lib/db.ts) -/

/-- A row of the IndexedDB `transactions` object store
(`LocalTransaction` in src/lib/db.ts).  The source generates `id` with
`crypto.randomUUID()`; the model draws identifiers from the store's
`nextId` counter, which stands for the guarantee that a freshly generated
UUID differs from every identifier already in use. -/
structure LocalTx where
  id : Nat
  subcategoryId : Nat
  amount : Int
  occurredAt : String
  notes : Option String
  createdAt : Nat
  updatedAt : Nat
  syncedToSupabase : Bool
  supabaseId : Option Nat
deriving Repr, DecidableEq

/-- The local IndexedDB database: the `transactions` object store content,
the UUID-freshness counter, and the current value of `Date.now()`. -/
structure LocalDB where
  store : List LocalTx
  nextId : Nat
  now : Nat
deriving Repr, DecidableEq

/-- Errors of local-store operations: a missing record, or an
IndexedDB-level storage failure. -/
inductive DbErr
  | notFound
  | storage
deriving Repr, DecidableEq

/-- src/lib/db.ts `getAllTransactions`. -/
def getAllTransactions (db : LocalDB) : List LocalTx := db.store

/-- Gregorian leap-year predicate (the rule implemented by JavaScript
`Date`). -/
def isLeap (y : Nat) : Bool := (y % 4 == 0 && y % 100 != 0) || y % 400 == 0

/-- Number of days of (1-based) month `m` of year `y` in the proleptic
Gregorian calendar used by JavaScript `Date`. -/
def daysInMonth (y m : Nat) : Nat :=
  if m = 2 then (if isLeap y then 29 else 28)
  else if m = 4 ∨ m = 6 ∨ m = 9 ∨ m = 11 then 30
  else 31

/-- `new Date(year, month, 0).getDate()` for `1 ≤ month ≤ 12`: the number of
days of month `month` of `year`.  The two-argument `Date` constructor maps
year arguments 0–99 to 1900–1999, which the model reproduces. -/
def lastDayOfMonth (year month : Nat) : Nat :=
  daysInMonth (if year ≤ 99 then year + 1900 else year) month

/-- The lower bound string `` `${year}-${String(month).padStart(2, '0')}-01` ``
built by `getTransactionsByMonth`. -/
def monthStartKey (year month : Nat) : String :=
  ⟨natDigits year ++ '-' :: pad2 month ++ ['-', '0', '1']⟩

/-- The upper bound string of `getTransactionsByMonth`: the same prefix
followed by the zero-padded last day of the month. -/
def monthEndKey (year month : Nat) : String :=
  ⟨natDigits year ++ '-' :: pad2 month ++ '-' :: pad2 (lastDayOfMonth year month)⟩

/-- src/lib/db.ts `getTransactionsByMonth`: the records whose `occurredAt`
lies in the inclusive IndexedDB key range
`IDBKeyRange.bound(startDate, endDate)` over string key order.  The index
scan returns records sorted by key; the claims below are stated up to
membership, so the model keeps store order. -/
def getTransactionsByMonth (db : LocalDB) (year month : Nat) : List LocalTx :=
  db.store.filter fun t =>
    strLe (monthStartKey year month) t.occurredAt &&
      strLe t.occurredAt (monthEndKey year month)

/-- A partial record update (`Partial<LocalTransaction>`) as merged by
`updateTransaction` via object spread. -/
structure TxPatch where
  subcategoryId : Option Nat := none
  amount : Option Int := none
  occurredAt : Option String := none
  notes : Option (Option String) := none
  syncedToSupabase : Option Bool := none
  supabaseId : Option (Option Nat) := none
deriving Repr, DecidableEq

/-- The merge `{ ...existing, ...updates, updatedAt: Date.now() }` performed
by `updateTransaction`. -/
def applyPatch (now : Nat) (p : TxPatch) (t : LocalTx) : LocalTx :=
  { t with
    subcategoryId := p.subcategoryId.getD t.subcategoryId
    amount := p.amount.getD t.amount
    occurredAt := p.occurredAt.getD t.occurredAt
    notes := p.notes.getD t.notes
    syncedToSupabase := p.syncedToSupabase.getD t.syncedToSupabase
    supabaseId := p.supabaseId.getD t.supabaseId
    updatedAt := now }

/-- src/lib/db.ts `addTransaction`: builds the new record (fresh id, both
timestamps set to `Date.now()`, `syncedToSupabase = false`,
`supabaseId = null`) and `add`s it, which fails if the key already exists. -/
def addTransaction (db : LocalDB) (subcategoryId : Nat) (amount : Int)
    (occurredAt : String) (notes : Option String) :
    Except DbErr (LocalTx × LocalDB) :=
  let t : LocalTx :=
    { id := db.nextId, subcategoryId := subcategoryId, amount := amount,
      occurredAt := occurredAt, notes := notes, createdAt := db.now,
      updatedAt := db.now, syncedToSupabase := false, supabaseId := none }
  if db.store.any (fun x => x.id == db.nextId) then .error .storage
  else .ok (t, { db with store := db.store ++ [t], nextId := db.nextId + 1 })

/-- src/lib/db.ts `updateTransaction`: gets the existing record by key
(rejecting with `Transaction not found` if absent), merges the updates,
refreshes `updatedAt`, and `put`s the result back under the same key. -/
def updateTransaction (db : LocalDB) (id : Nat) (p : TxPatch) :
    Except DbErr LocalDB :=
  if db.store.any (fun t => t.id == id) then
    .ok { db with
          store := db.store.map fun t =>
            if t.id = id then applyPatch db.now p t else t }
  else .error .notFound

/-- src/lib/db.ts `markAsSynced`: an `updateTransaction` with
`{ syncedToSupabase: true, supabaseId }`. -/
def markAsSynced (db : LocalDB) (id supabaseId : Nat) : Except DbErr LocalDB :=
  updateTransaction db id
    { syncedToSupabase := some true, supabaseId := some (some supabaseId) }

/-- src/lib/db.ts `getUnsyncedTransactions`. -/
def getUnsyncedTransactions (db : LocalDB) : List LocalTx :=
  db.store.filter fun t => ! t.syncedToSupabase

/-- src/lib/db.ts `deleteTransaction`: IndexedDB `delete` succeeds whether or
not the key is present. -/
def deleteTransaction (db : LocalDB) (id : Nat) : LocalDB :=
  { db with store := db.store.filter fun t => t.id != id }

/-! ## Remote store and environment (the consumed Supabase surface) -/

/-- A row of the remote `transactions` table: server-assigned `id`, the
owner (`user_id`), the originating device's record id (`local_id`, unique
per owner), and the mirrored record fields. -/
structure RemoteRow where
  id : Nat
  userId : Nat
  localId : Nat
  subcategoryId : Nat
  amount : Int
  occurredAt : String
  notes : Option String
deriving Repr, DecidableEq

/-- The remote database: the rows plus the server's id sequence (Postgres
serial ids are modelled by a fresh counter). -/
structure RemoteDB where
  rows : List RemoteRow
  nextId : Nat
deriving Repr, DecidableEq

/-- Combined local + remote state. -/
structure Sys where
  ldb : LocalDB
  rdb : RemoteDB
deriving Repr, DecidableEq

/-- Execution environment of a pass: authentication (`getCurrentUserId`),
connectivity (`navigator.onLine`), and injectable remote-call failures.
The Supabase client surfaces failures as error values, not exceptions; the
per-record fault functions are keyed by the local record id the call is
about.  `failStatus` injects a rejection of the IndexedDB reads behind
`getSyncStatus`, and `listenerThrows` a throwing status subscriber. -/
structure Env where
  userId : Option Nat
  online : Bool
  failInsert : Nat → Bool
  failUpdate : Nat → Bool
  failSelect : Nat → Bool
  failPull : Bool
  failDelete : Bool
  failStatus : Bool
  listenerThrows : Bool

/-- Fault-free environment with the given identity and connectivity. -/
def okEnv (uid : Option Nat) (online : Bool) : Env :=
  { userId := uid, online := online,
    failInsert := fun _ => false, failUpdate := fun _ => false,
    failSelect := fun _ => false, failPull := false, failDelete := false,
    failStatus := false, listenerThrows := false }

/-- JavaScript truthiness of the `supabaseId` field (`null` and `0` are
both falsy). -/
def sidTruthy : Option Nat → Bool
  | none => false
  | some sid => sid != 0

/-! ## Reconciliation protocol (src/services/transactionService.ts) -/

/-- The remote `update(fields).eq('id', sid).eq('user_id', uid)`: updates the
mirrored fields of every matching row (at most one, since `id` is the remote
primary key). -/
def applyRemoteUpdate (uid sid : Nat) (t : LocalTx) (r : RemoteDB) : RemoteDB :=
  { r with rows := r.rows.map (fun row =>
      if row.id = sid ∧ row.userId = uid then
        { row with
            subcategoryId := t.subcategoryId
            amount := t.amount
            occurredAt := t.occurredAt
            notes := t.notes }
      else row) }

/-- The UPDATE branch of one `syncToSupabase` loop iteration: on remote
error, log and continue (no local change); on success, `markAsSynced` with
the unchanged `supabaseId` (a rejection of that local write is swallowed by
the per-item catch). -/
def syncItemUpd (env : Env) (uid : Nat) (s : Sys) (t : LocalTx) (sid : Nat) :
    Sys :=
  if env.failUpdate t.id then s
  else
    let rdb := applyRemoteUpdate uid sid t s.rdb
    match markAsSynced s.ldb t.id sid with
    | .ok ldb => { ldb := ldb, rdb := rdb }
    | .error _ => { s with rdb := rdb }

/-- The INSERT branch of one `syncToSupabase` loop iteration.  A failed
insert with the recognized duplicate error (`23505`, the uniqueness
violation on `(user_id, local_id)`) triggers the recovery lookup
`select('id').eq('user_id', uid).eq('local_id', t.id).single()`, which
succeeds only when exactly one row matches; on recovery success the record
is marked synced with the existing row's id, on lookup failure it is left
unsynced.  Any other insert error leaves the record unsynced.  A successful
insert appends the row under a fresh server id and marks the record synced
with it. -/
def syncItemIns (env : Env) (uid : Nat) (s : Sys) (t : LocalTx) : Sys :=
  if env.failInsert t.id then s
  else if s.rdb.rows.any (fun row => row.userId == uid && row.localId == t.id) then
    if env.failSelect t.id then s
    else
      match s.rdb.rows.filter (fun row => row.userId == uid && row.localId == t.id) with
      | [row] =>
        match markAsSynced s.ldb t.id row.id with
        | .ok ldb => { s with ldb := ldb }
        | .error _ => s
      | _ => s
  else
    let newId := s.rdb.nextId
    let rdb : RemoteDB :=
      { rows := s.rdb.rows ++
          [{ id := newId, userId := uid, localId := t.id,
             subcategoryId := t.subcategoryId, amount := t.amount,
             occurredAt := t.occurredAt, notes := t.notes }],
        nextId := newId + 1 }
    match markAsSynced s.ldb t.id newId with
    | .ok ldb => { ldb := ldb, rdb := rdb }
    | .error _ => { s with rdb := rdb }

/-- One iteration of the `syncToSupabase` loop over an unsynced record:
dispatches on `if (localTx.supabaseId)` (JavaScript truthiness) between the
update and insert branches.  The second component counts the remote write
calls (insert or update attempts) the iteration issues — always exactly
one. -/
def syncItem (env : Env) (uid : Nat) (s : Sys) (t : LocalTx) : Sys × Nat :=
  match t.supabaseId with
  | some sid =>
    if sid != 0 then (syncItemUpd env uid s t sid, 1)
    else (syncItemIns env uid s t, 1)
  | none => (syncItemIns env uid s t, 1)

/-- Sequential processing of the captured unsynced list, accumulating the
write-attempt count. -/
def pushLoop (env : Env) (uid : Nat) :
    List LocalTx → Sys → Nat → Sys × Nat
  | [], s, w => (s, w)
  | t :: rest, s, w =>
    let p := syncItem env uid s t
    pushLoop env uid rest p.1 (w + p.2)

/-- src/services/transactionService.ts `syncToSupabase` (push): no-op when
unauthenticated or offline; otherwise processes the unsynced records
captured once up front, item by item.  Returns the final state and the
number of remote write calls issued.  All errors are handled inside (the
function never throws). -/
def syncToSupabase (env : Env) (s : Sys) : Sys × Nat :=
  match env.userId with
  | none => (s, 0)
  | some uid =>
    if env.online then
      pushLoop env uid (getUnsyncedTransactions s.ldb) s 0
    else (s, 0)

/-- The `localIds` skip set captured by `pullFromSupabase`:
`new Set(localTransactions.map(t => t.id))`. -/
def localIdsOf (db : LocalDB) : List Nat := db.store.map (·.id)

/-- The `supabaseIds` skip set captured by `pullFromSupabase`:
`new Set(localTransactions.map(t => t.supabaseId).filter(Boolean))` —
`filter(Boolean)` drops both `null` and `0`. -/
def supaIdsOf (db : LocalDB) : List Nat :=
  (db.store.filterMap (·.supabaseId)).filter (· != 0)

/-- The loop body of `pullFromSupabase` over the fetched remote rows, with
the `localIds` / `supabaseIds` skip sets captured once before the loop.
A rejected local write aborts the remaining loop (the exception is caught
by the function's top-level catch); the counter counts records added. -/
def pullLoop (uid : Nat) (localIds supaIds : List Nat) :
    List RemoteRow → Sys → Nat → Sys × Nat
  | [], s, n => (s, n)
  | r :: rest, s, n =>
    if localIds.contains r.localId || supaIds.contains r.id then
      pullLoop uid localIds supaIds rest s n
    else
      match addTransaction s.ldb r.subcategoryId r.amount r.occurredAt r.notes with
      | .error _ => (s, n)
      | .ok (newTx, ldb₁) =>
        match markAsSynced ldb₁ newTx.id r.id with
        | .error _ => ({ s with ldb := ldb₁ }, n)
        | .ok ldb₂ => pullLoop uid localIds supaIds rest { s with ldb := ldb₂ } (n + 1)

/-- src/services/transactionService.ts `pullFromSupabase`: no-op when
unauthenticated, offline, when the remote select fails, or when the account
has no rows.  Otherwise imports every fetched row whose `local_id` is not a
known local id and whose `id` is not a known `supabaseId`
(`filter(Boolean)` in the source drops both `null` and `0` from the
`supabaseIds` set).  Never touches the remote store.  Returns the final
state and the number of records added. -/
def pullFromSupabase (env : Env) (s : Sys) : Sys × Nat :=
  match env.userId with
  | none => (s, 0)
  | some uid =>
    if ! env.online then (s, 0)
    else if env.failPull then (s, 0)
    else
      let rows := s.rdb.rows.filter fun r => r.userId == uid
      if rows.isEmpty then (s, 0)
      else pullLoop uid (localIdsOf s.ldb) (supaIdsOf s.ldb) rows s 0

/-- The `{total, synced, unsynced}` aggregate of `getSyncStatus`. -/
structure SyncStatus where
  total : Nat
  synced : Nat
  unsynced : Nat
deriving Repr, DecidableEq

/-- src/services/transactionService.ts `getSyncStatus`: recomputed from the
local store on every call. -/
def getSyncStatus (db : LocalDB) : SyncStatus :=
  { total := (getAllTransactions db).length,
    synced := (getAllTransactions db).length - (getUnsyncedTransactions db).length,
    unsynced := (getUnsyncedTransactions db).length }

/-- The optional fields a caller may pass to `updateLocalTransaction`. -/
structure UserUpdates where
  subcategoryId : Option Nat := none
  amount : Option Int := none
  occurredAt : Option String := none
  notes : Option String := none
deriving Repr, DecidableEq

/-- src/services/transactionService.ts `updateLocalTransaction`: merges the
user's updates with `syncedToSupabase: false` and applies
`updateTransaction`.  The background push it then fires without awaiting is
modelled as a separate `syncToSupabase` invocation. -/
def updateLocalTransaction (db : LocalDB) (id : Nat) (u : UserUpdates) :
    Except DbErr LocalDB :=
  updateTransaction db id
    { subcategoryId := u.subcategoryId, amount := u.amount,
      occurredAt := u.occurredAt, notes := u.notes.map some,
      syncedToSupabase := some false, supabaseId := none }

/-- The remote `delete().eq('id', sid).eq('user_id', uid)`. -/
def applyRemoteDelete (uid sid : Nat) (r : RemoteDB) : RemoteDB :=
  { r with rows := r.rows.filter fun row => ! (row.id == sid && row.userId == uid) }

/-- src/services/transactionService.ts `deleteLocalTransaction`: rejects
with `Transaction not found` when the id is absent; otherwise deletes the
record locally first, then — only `if (localTx.syncedToSupabase &&
localTx.supabaseId)` and a user id is available and the device is online —
attempts the remote delete, whose failure is only logged.  The returned
flag records whether a remote delete was attempted. -/
def deleteLocalTransaction (env : Env) (s : Sys) (id : Nat) :
    Except DbErr (Sys × Bool) :=
  match s.ldb.store.find? (fun t => t.id == id) with
  | none => .error .notFound
  | some t =>
    let ldb' := deleteTransaction s.ldb id
    if t.syncedToSupabase && sidTruthy t.supabaseId then
      match env.userId with
      | some uid =>
        if env.online then
          if env.failDelete then .ok ({ ldb := ldb', rdb := s.rdb }, true)
          else
            .ok ({ ldb := ldb',
                   rdb := applyRemoteDelete uid (t.supabaseId.getD 0) s.rdb },
              true)
        else .ok ({ ldb := ldb', rdb := s.rdb }, false)
      | none => .ok ({ ldb := ldb', rdb := s.rdb }, false)
    else .ok ({ ldb := ldb', rdb := s.rdb }, false)

/-! ## Date utilities (src/lib/dateUtils.ts) -/

/-- JavaScript `str.split('-')` on the code-unit list. -/
def splitOnChar (c : Char) : List Char → List (List Char)
  | [] => [[]]
  | a :: rest =>
    if a = c then [] :: splitOnChar c rest
    else
      match splitOnChar c rest with
      | [] => [[a]]
      | g :: gs => (a :: g) :: gs

/-- Value of a decimal digit string. -/
def digitsVal (l : List Char) : Nat :=
  l.foldl (fun a ch => 10 * a + (ch.toNat - 48)) 0

/-- JavaScript `Number(part)` on the strings this code path produces:
the empty string coerces to `0`, a nonempty string of decimal digits to its
value; anything else (signs, blanks, decimal points, other characters) is
outside the modelled subset and maps to `none`, standing for `NaN`. -/
def jsNumber (l : List Char) : Option Int :=
  if l.isEmpty then some 0
  else if l.all (fun ch => 48 ≤ ch.toNat && ch.toNat ≤ 57) then
    some (digitsVal l)
  else none

/-- The calendar fields a JavaScript `Date` exposes in local time:
`getFullYear`, `getMonth` (0-based), `getDate`. -/
structure JSDate where
  year : Int
  monthIdx : Int
  day : Int
deriving Repr, DecidableEq

/-- Gregorian leap year on `Int` years. -/
def isLeapZ (y : Int) : Bool := (y % 4 == 0 && y % 100 != 0) || y % 400 == 0

/-- Days of the 0-based month `mIdx ∈ [0, 11]` of year `y`. -/
def daysInMonthZ (y mIdx : Int) : Int :=
  if mIdx = 1 then (if isLeapZ y then 29 else 28)
  else if mIdx = 3 ∨ mIdx = 5 ∨ mIdx = 8 ∨ mIdx = 10 then 30
  else 31

/-- Month-overflow normalization of the `Date` constructor: the month index
is reduced into `[0, 11]`, carrying whole years (floor semantics). -/
def normMonth (y mIdx : Int) : Int × Int :=
  (y + Int.fdiv mIdx 12, Int.emod mIdx 12)

/-- Day-overflow normalization: starting from day-of-month `d` of the
month-normalized `(y, mIdx)`, rolls the day month-by-month until it is in
range, as the `Date` time-value computation does.  Each step moves at least
28 days, so fuel `d.natAbs + 2` always suffices; in-range inputs return
immediately. -/
def rollDays : Nat → Int → Int → Int → JSDate
  | 0, y, mIdx, d => ⟨y, mIdx, d⟩
  | fuel + 1, y, mIdx, d =>
    if d < 1 then
      let p := normMonth y (mIdx - 1)
      rollDays fuel p.1 p.2 (d + daysInMonthZ p.1 p.2)
    else if daysInMonthZ y mIdx < d then
      let p := normMonth y (mIdx + 1)
      rollDays fuel p.1 p.2 (d - daysInMonthZ y mIdx)
    else ⟨y, mIdx, d⟩

/-- `new Date(year, monthIndex, day)` in local time: the constructor maps
integer year arguments 0–99 to 1900–1999, then normalizes month and day. -/
def newDateLocal (y mIdx d : Int) : JSDate :=
  let y₀ := if 0 ≤ y ∧ y ≤ 99 then y + 1900 else y
  let p := normMonth y₀ mIdx
  rollDays (d.natAbs + 2) p.1 p.2 d

/-- src/lib/dateUtils.ts `parseLocalDate`: splits on `'-'`, converts the
first three parts with `Number` (extra parts are dropped by the
destructuring, missing parts are `undefined`, hence `NaN`), and constructs
the date directly from the numeric components via
`new Date(year, month - 1, day)` — local time, never a UTC-assuming parser.
`none` stands for an invalid date. -/
def parseLocalDate (s : String) : Option JSDate :=
  match (splitOnChar '-' s.data).map jsNumber with
  | some y :: some m :: some d :: _ => some (newDateLocal y (m - 1) d)
  | _ => none

/-- Decimal rendering of an `Int` the way JavaScript template literals
render numbers. -/
def intDigits (i : Int) : List Char :=
  if i < 0 then '-' :: natDigits i.natAbs else natDigits i.toNat

/-- `String(i).padStart(2, '0')`. -/
def pad2Z (i : Int) : List Char := padStart 2 '0' (intDigits i)

/-- src/lib/dateUtils.ts `formatLocalDate`:
the year from `getFullYear` is rendered without padding, month and day are
zero-padded to two characters. -/
def formatLocalDate (dt : JSDate) : String :=
  ⟨intDigits dt.year ++ '-' :: pad2Z (dt.monthIdx + 1) ++ '-' :: pad2Z dt.day⟩

/-! ## Sync coordinator (src/services/syncManager.ts) -/

/-- The `SyncManager` singleton's scheduling state. -/
structure MgrState where
  isSyncing : Bool
  hasRunInitialSync : Bool
deriving Repr, DecidableEq

/-- Whether `notifyListeners` completes without throwing: it rejects when
the IndexedDB reads behind `getSyncStatus` reject, or when a subscriber
callback throws. -/
def notifyOk (env : Env) : Bool := ! (env.failStatus || env.listenerThrows)

/-- `SyncManager.sync()` (manual trigger): busy and offline guards, then
flag set, push, notify, flag clear.  The third component is `true` when an
uncaught error escaped the call; there is no try/finally in the source, so
after the busy flag is set a rejection of `notifyListeners` propagates and
skips the `this.isSyncing = false` line. -/
def mgrSync (env : Env) (m : MgrState) (s : Sys) : MgrState × Sys × Bool :=
  if m.isSyncing then (m, s, false)
  else if ! env.online then (m, s, false)
  else
    let m₁ : MgrState := { m with isSyncing := true }
    let s₁ := (syncToSupabase env s).1
    if notifyOk env then ({ m₁ with isSyncing := false }, s₁, false)
    else (m₁, s₁, true)

/-- `SyncManager.runInitialSync()`: the one-shot and busy guards and the
setting of `hasRunInitialSync` happen synchronously; when online the pass
runs pull-then-push, notifies, and clears the flag — with the same missing
try/finally as `sync()`. -/
def mgrRunInitialSync (env : Env) (m : MgrState) (s : Sys) :
    MgrState × Sys × Bool :=
  if m.hasRunInitialSync then (m, s, false)
  else if m.isSyncing then (m, s, false)
  else
    let m₁ : MgrState := { m with hasRunInitialSync := true }
    if env.online then
      let m₂ : MgrState := { m₁ with isSyncing := true }
      let s₁ := (pullFromSupabase env s).1
      let s₂ := (syncToSupabase env s₁).1
      if notifyOk env then ({ m₂ with isSyncing := false }, s₂, false)
      else (m₂, s₂, true)
    else (m₁, s, false)

/-- The body of one auto-sync timer tick: the busy check runs before the
awaited `getSyncStatus` read, the status subscribers run next, and only
then are the unsynced count and connectivity tested and the busy flag
set. -/
def mgrTimerTick (env : Env) (m : MgrState) (s : Sys) : MgrState × Sys × Bool :=
  if m.isSyncing then (m, s, false)
  else if env.failStatus then (m, s, true)
  else if env.listenerThrows then (m, s, true)
  else if 0 < (getSyncStatus s.ldb).unsynced ∧ env.online then
    let m₁ : MgrState := { m with isSyncing := true }
    let s₁ := (syncToSupabase env s).1
    if notifyOk env then ({ m₁ with isSyncing := false }, s₁, false)
    else (m₁, s₁, true)
  else (m, s, false)

/-- The `online` event handler installed by `startAutoSync`: busy check and
flag set are synchronous, then push, notify, flag clear. -/
def mgrHandleOnline (env : Env) (m : MgrState) (s : Sys) :
    MgrState × Sys × Bool :=
  if m.isSyncing then (m, s, false)
  else
    let m₁ : MgrState := { m with isSyncing := true }
    let s₁ := (syncToSupabase env s).1
    if notifyOk env then ({ m₁ with isSyncing := false }, s₁, false)
    else (m₁, s₁, true)

/-! ## Interleaving model of the coordinator triggers -/

/-- Atomic steps of the trigger handlers.  Code between two `await`
suspension points runs atomically on the single-threaded event loop; the
`check…` atoms abort the rest of their handler when the guard fails. -/
inductive Atom
  | checkBusy
  | checkOnline
  | checkUnsynced
  | setBusy
  | beginPass
  | endPass
  | clearBusy
deriving Repr, DecidableEq

/-- Coordinator state abstracted for the interleaving model: the busy flag,
connectivity, the unsynced count the timer reads, and the number of
reconciliation passes currently touching the remote store. -/
structure CoState where
  isSyncing : Bool
  online : Bool
  unsynced : Nat
  activePasses : Nat
deriving Repr, DecidableEq

/-- Run one atomic segment; the `Bool` is `false` when a guard aborted the
handler. -/
def runSeg : CoState → List Atom → CoState × Bool
  | s, [] => (s, true)
  | s, a :: rest =>
    match a with
    | .checkBusy => if s.isSyncing then (s, false) else runSeg s rest
    | .checkOnline => if s.online then runSeg s rest else (s, false)
    | .checkUnsynced => if s.unsynced = 0 then (s, false) else runSeg s rest
    | .setBusy => runSeg { s with isSyncing := true } rest
    | .beginPass => runSeg { s with activePasses := s.activePasses + 1 } rest
    | .endPass =>
      runSeg { s with activePasses := s.activePasses - 1, unsynced := 0 } rest
    | .clearBusy => runSeg { s with isSyncing := false } rest

/-- `sync()` as segments: the busy and online checks and the flag set run
synchronously before the first await; after the awaited notify the flag is
cleared. -/
def manualSyncSegs : List (List Atom) :=
  [[.checkBusy, .checkOnline, .setBusy, .beginPass], [.endPass], [.clearBusy]]

/-- The timer-tick callback as segments: the busy check runs, then the
callback suspends on `await getSyncStatus()`; only after resuming does it
test the unsynced count and connectivity and set the busy flag. -/
def timerTickSegs : List (List Atom) :=
  [[.checkBusy], [.checkUnsynced, .checkOnline, .setBusy, .beginPass],
    [.endPass], [.clearBusy]]

/-- The `online` event handler as segments: busy check and flag set are
synchronous. -/
def onlineEvtSegs : List (List Atom) :=
  [[.checkBusy, .setBusy, .beginPass], [.endPass], [.clearBusy]]

/-- Run a task's next segment; an aborted task is dropped. -/
def stepTask (s : CoState) (t : List (List Atom)) :
    CoState × List (List Atom) :=
  match t with
  | [] => (s, [])
  | seg :: rest =>
    let p := runSeg s seg
    (p.1, if p.2 then rest else [])

/-- Execute the tasks under an explicit schedule (a list of task indices),
returning the final state and the maximum number of simultaneously active
passes observed. -/
def runSched : CoState → List (List (List Atom)) → List Nat → CoState × Nat
  | s, _, [] => (s, s.activePasses)
  | s, ts, i :: rest =>
    match ts.get? i with
    | none => runSched s ts rest
    | some t =>
      let p := stepTask s t
      let q := runSched p.1 (ts.set i p.2) rest
      (q.1, max p.1.activePasses q.2)

/-! ## Digit and date-key lemmas -/

theorem digitChar_toNat : ∀ n < 10, (digitChar n).toNat = 48 + n := by decide

theorem digitChar_toNat_mod (n : Nat) :
    (digitChar (n % 10)).toNat = 48 + n % 10 :=
  digitChar_toNat _ (Nat.mod_lt _ (by omega))

theorem natToDigitsAux_succ (fuel n : Nat) :
    natToDigitsAux (fuel + 1) n =
      if n < 10 then [digitChar n]
      else natToDigitsAux fuel (n / 10) ++ [digitChar (n % 10)] := rfl

theorem natToDigitsAux_fuel (f₁ : Nat) : ∀ f₂ n, n < f₁ → n < f₂ →
    natToDigitsAux f₁ n = natToDigitsAux f₂ n := by
  induction f₁ with
  | zero => intro f₂ n h₁ _; omega
  | succ k ih =>
    intro f₂ n h₁ h₂
    cases f₂ with
    | zero => omega
    | succ j =>
      rw [natToDigitsAux_succ, natToDigitsAux_succ]
      by_cases hn : n < 10
      · simp [hn]
      · have hd : n / 10 < n := Nat.div_lt_self (by omega) (by omega)
        simp only [if_neg hn]
        rw [ih j (n / 10) (by omega) (by omega)]

theorem natDigits_small {n : Nat} (h : n < 10) : natDigits n = [digitChar n] := by
  rw [natDigits, natToDigitsAux_succ, if_pos h]

theorem natDigits_step {n : Nat} (h : 10 ≤ n) :
    natDigits n = natDigits (n / 10) ++ [digitChar (n % 10)] := by
  have hd : n / 10 < n := Nat.div_lt_self (by omega) (by omega)
  rw [natDigits, natToDigitsAux_succ, if_neg (by omega : ¬ n < 10),
    natToDigitsAux_fuel n (n / 10 + 1) (n / 10) (by omega) (by omega)]
  rfl

theorem natDigits_four {y : Nat} (h1 : 1000 ≤ y) (h2 : y ≤ 9999) :
    natDigits y = [digitChar (y / 1000 % 10), digitChar (y / 100 % 10),
      digitChar (y / 10 % 10), digitChar (y % 10)] := by
  rw [natDigits_step (by omega), natDigits_step (by omega : 10 ≤ y / 10),
    natDigits_step (by omega : 10 ≤ y / 10 / 10),
    natDigits_small (by omega : y / 10 / 10 / 10 < 10)]
  have e₁ : y / 10 / 10 / 10 = y / 1000 % 10 := by omega
  have e₂ : y / 10 / 10 % 10 = y / 100 % 10 := by omega
  rw [e₁, e₂]
  rfl

theorem pad2_eq {m : Nat} (h : m ≤ 99) :
    pad2 m = [digitChar (m / 10 % 10), digitChar (m % 10)] := by
  by_cases hm : m < 10
  · rw [pad2, natDigits_small hm]
    have e₁ : m / 10 % 10 = 0 := by omega
    have e₂ : m % 10 = m := by omega
    have h0 : digitChar 0 = '0' := by decide
    rw [e₁, e₂, h0]
    rfl
  · rw [pad2, natDigits_step (by omega), natDigits_small (by omega : m / 10 < 10)]
    have e₁ : m / 10 % 10 = m / 10 := by omega
    rw [e₁]
    rfl

/-- The code-unit list of a `YYYY-MM-DD` style key built from numeric
components the way the source builds its date strings. -/
def dateKey (y m d : Nat) : String :=
  ⟨natDigits y ++ '-' :: pad2 m ++ '-' :: pad2 d⟩

theorem monthStartKey_eq (y m : Nat) : monthStartKey y m = dateKey y m 1 := by
  have h : pad2 1 = ['0', '1'] := by decide
  simp [monthStartKey, dateKey, h]

theorem monthEndKey_eq (y m : Nat) :
    monthEndKey y m = dateKey y m (lastDayOfMonth y m) := rfl

theorem dateKey_data (y m d : Nat) :
    (dateKey y m d).data = natDigits y ++ '-' :: pad2 m ++ '-' :: pad2 d := rfl

theorem charListLt_cons (a b : Char) (as bs : List Char) :
    charListLt (a :: as) (b :: bs) =
      if a.toNat < b.toNat then true
      else if b.toNat < a.toNat then false
      else charListLt as bs := rfl

theorem charListLt_nil : charListLt [] [] = false := rfl

theorem charListLt_digit_mod (a b : Nat) (as bs : List Char) :
    (charListLt (digitChar (a % 10) :: as) (digitChar (b % 10) :: bs) = true) ↔
      (a % 10 < b % 10 ∨ (a % 10 = b % 10 ∧ charListLt as bs = true)) := by
  rw [charListLt_cons, digitChar_toNat _ (Nat.mod_lt _ (by omega)),
    digitChar_toNat _ (Nat.mod_lt _ (by omega))]
  split_ifs with h1 h2
  · simp only [true_iff]
    exact Or.inl (by omega)
  · constructor
    · intro h; exact absurd h (by simp)
    · intro h
      rcases h with h | ⟨h, _⟩ <;> omega
  · have hab : a % 10 = b % 10 := by omega
    rw [hab]
    simp

theorem charListLt_block2 (a b : Nat) (as bs : List Char) :
    (charListLt (digitChar (a / 10 % 10) :: digitChar (a % 10) :: as)
      (digitChar (b / 10 % 10) :: digitChar (b % 10) :: bs) = true) ↔
      (a % 100 < b % 100 ∨ (a % 100 = b % 100 ∧ charListLt as bs = true)) := by
  have ha : a / 10 / 10 = a / 100 := by
    rw [Nat.div_div_eq_div_mul]
  have hb : b / 10 / 10 = b / 100 := by
    rw [Nat.div_div_eq_div_mul]
  rw [charListLt_digit_mod, charListLt_digit_mod]
  by_cases h : charListLt as bs = true <;>
    simp only [h, eq_self_iff_true, and_true, Bool.false_eq_true, and_false,
      or_false, iff_true, iff_false] <;>
    omega

theorem charListLt_dash (as bs : List Char) :
    (charListLt ('-' :: as) ('-' :: bs) = true) ↔ charListLt as bs = true := by
  rw [charListLt_cons]
  simp

theorem dateKey_lt {y₁ m₁ d₁ y₂ m₂ d₂ : Nat}
    (hy₁ : 1000 ≤ y₁) (hy₁' : y₁ ≤ 9999) (hy₂ : 1000 ≤ y₂) (hy₂' : y₂ ≤ 9999)
    (hm₁ : m₁ ≤ 99) (hm₂ : m₂ ≤ 99) (hd₁ : d₁ ≤ 99) (hd₂ : d₂ ≤ 99) :
    (charListLt (dateKey y₁ m₁ d₁).data (dateKey y₂ m₂ d₂).data = true) ↔
      (y₁ < y₂ ∨ (y₁ = y₂ ∧ (m₁ < m₂ ∨ (m₁ = m₂ ∧ d₁ < d₂)))) := by
  rw [dateKey_data, dateKey_data, natDigits_four hy₁ hy₁',
    natDigits_four hy₂ hy₂', pad2_eq hm₁, pad2_eq hm₂, pad2_eq hd₁, pad2_eq hd₂]
  simp only [List.cons_append, List.nil_append]
  have hc₁ : y₁ / 100 / 10 = y₁ / 1000 := by
    rw [Nat.div_div_eq_div_mul]
  have hc₂ : y₂ / 100 / 10 = y₂ / 1000 := by
    rw [Nat.div_div_eq_div_mul]
  have q₁ : y₁ / 1000 % 10 = y₁ / 100 / 10 % 10 := by rw [hc₁]
  have q₂ : y₂ / 1000 % 10 = y₂ / 100 / 10 % 10 := by rw [hc₂]
  rw [q₁, q₂, charListLt_block2, charListLt_block2, charListLt_dash,
    charListLt_block2, charListLt_dash, charListLt_block2, charListLt_nil]
  simp only [Bool.false_eq_true, false_and, and_false, or_false]
  omega

theorem daysInMonth_le (y m : Nat) : daysInMonth y m ≤ 31 := by
  rw [daysInMonth]
  split_ifs <;> omega

theorem daysInMonth_ge (y m : Nat) : 28 ≤ daysInMonth y m := by
  rw [daysInMonth]
  split_ifs <;> omega

theorem strLe_iff (a b : String) :
    (strLe a b = true) ↔ ¬ (charListLt b.data a.data = true) := by
  rw [strLe]
  cases charListLt b.data a.data <;> simp

/-- C8: for records whose `occurredAt` is a zero-padded `YYYY-MM-DD` string
(4-digit year, valid calendar date), `getTransactionsByMonth db year month`
contains exactly the records whose date lies in the queried calendar month:
the inclusive string range `[year-month-01, year-month-lastDay]` over
lexicographic code-unit order coincides with calendar-month membership. -/
theorem C8_month_filtering (db : LocalDB) (year month : Nat) (t : LocalTx)
    (y m d : Nat)
    (hyear : 1000 ≤ year) (hyear' : year ≤ 9999)
    (hmon : 1 ≤ month) (hmon' : month ≤ 12)
    (hy : 1000 ≤ y) (hy' : y ≤ 9999) (hm : 1 ≤ m) (hm' : m ≤ 12)
    (hd : 1 ≤ d) (hd' : d ≤ daysInMonth y m)
    (ht : t ∈ db.store) (hocc : t.occurredAt = dateKey y m d) :
    t ∈ getTransactionsByMonth db year month ↔ (y = year ∧ m = month) := by
  have hLrw : monthEndKey year month
      = dateKey year month (daysInMonth year month) := by
    rw [monthEndKey_eq, lastDayOfMonth, if_neg (by omega : ¬ year ≤ 99)]
  have hd31 : d ≤ 31 := le_trans hd' (daysInMonth_le y m)
  have hL28 : 28 ≤ daysInMonth year month := daysInMonth_ge year month
  have hL31 : daysInMonth year month ≤ 31 := daysInMonth_le year month
  constructor
  · intro hmem
    obtain ⟨-, hp⟩ := List.mem_filter.mp hmem
    rw [Bool.and_eq_true] at hp
    obtain ⟨hp₁, hp₂⟩ := hp
    rw [monthStartKey_eq, strLe_iff, hocc,
      dateKey_lt hy hy' hyear hyear' (by omega) (by omega) (by omega)
        (by omega)] at hp₁
    rw [hLrw, strLe_iff, hocc,
      dateKey_lt hyear hyear' hy hy' (by omega) (by omega) (by omega)
        (by omega)] at hp₂
    omega
  · rintro ⟨hyy, hmm⟩
    subst hyy
    subst hmm
    refine List.mem_filter.mpr ⟨ht, ?_⟩
    rw [Bool.and_eq_true]
    constructor
    · rw [monthStartKey_eq, strLe_iff, hocc,
        dateKey_lt hy hy' hy hy' (by omega) (by omega) (by omega) (by omega)]
      omega
    · rw [hLrw, strLe_iff, hocc,
        dateKey_lt hy hy' hy hy' (by omega) (by omega) (by omega) (by omega)]
      omega

/-- A concrete record used to instantiate the month-filtering theorem. -/
def c8tx (n : Nat) (s : String) : LocalTx :=
  { id := n, subcategoryId := 1, amount := 5, occurredAt := s, notes := none,
    createdAt := 0, updatedAt := 0, syncedToSupabase := false,
    supabaseId := none }

/-- The three-record store of the spec's month-filtering example. -/
def c8db : LocalDB :=
  { store := [c8tx 1 "2025-01-31", c8tx 2 "2025-02-01", c8tx 3 "2025-02-28"],
    nextId := 4, now := 0 }

/-- Witness for C8 on the spec's own example: querying `2025-02` excludes the
record dated `2025-01-31` and includes the ones dated `2025-02-01` and
`2025-02-28`. -/
theorem C8_month_filtering_witness :
    c8tx 1 "2025-01-31" ∉ getTransactionsByMonth c8db 2025 2 ∧
    c8tx 2 "2025-02-01" ∈ getTransactionsByMonth c8db 2025 2 ∧
    c8tx 3 "2025-02-28" ∈ getTransactionsByMonth c8db 2025 2 := by
  refine ⟨fun hmem => ?_, ?_, ?_⟩
  · have h := (C8_month_filtering c8db 2025 2 (c8tx 1 "2025-01-31") 2025 1 31
      (by decide) (by decide) (by decide) (by decide) (by decide) (by decide)
      (by decide) (by decide) (by decide) (by decide) (by decide)
      (by decide)).mp hmem
    exact absurd h.2 (by decide)
  · exact (C8_month_filtering c8db 2025 2 (c8tx 2 "2025-02-01") 2025 2 1
      (by decide) (by decide) (by decide) (by decide) (by decide) (by decide)
      (by decide) (by decide) (by decide) (by decide) (by decide)
      (by decide)).mpr ⟨rfl, rfl⟩
  · exact (C8_month_filtering c8db 2025 2 (c8tx 3 "2025-02-28") 2025 2 28
      (by decide) (by decide) (by decide) (by decide) (by decide) (by decide)
      (by decide) (by decide) (by decide) (by decide) (by decide)
      (by decide)).mpr ⟨rfl, rfl⟩

/-! ## Push/pull helper lemmas -/

/-- The record transformation `markAsSynced` applies to the targeted id. -/
def syncMark (now sid : Nat) (t : LocalTx) : LocalTx :=
  { t with syncedToSupabase := true, supabaseId := some sid, updatedAt := now }

theorem markAsSynced_ok (db : LocalDB) (id sid : Nat)
    (h : (db.store.any fun t => t.id == id) = true) :
    markAsSynced db id sid =
      .ok { db with store := db.store.map fun t =>
            if t.id = id then syncMark db.now sid t else t } := by
  rw [markAsSynced, updateTransaction, if_pos h]
  rfl

theorem mem_ids_any (db : LocalDB) (id : Nat) :
    id ∈ localIdsOf db ↔ (db.store.any fun t => t.id == id) = true := by
  rw [localIdsOf, List.any_eq_true]
  constructor
  · intro h
    obtain ⟨x, hx, hxe⟩ := List.mem_map.mp h
    exact ⟨x, hx, by simp [hxe]⟩
  · rintro ⟨x, hx, hxe⟩
    exact List.mem_map.mpr ⟨x, hx, by simpa using hxe⟩

theorem map_markIf_eq_self (l : List LocalTx) (id sid now : Nat)
    (h : (l.any fun x => x.id == id) = false) :
    (l.map fun x => if x.id = id then syncMark now sid x else x) = l := by
  induction l with
  | nil => rfl
  | cons a rest ih =>
    rw [List.any_cons, Bool.or_eq_false_iff] at h
    rw [List.map_cons, if_neg (by simpa using h.1), ih h.2]

theorem idsOf_markIf (l : List LocalTx) (id sid now : Nat) :
    ((l.map fun x => if x.id = id then syncMark now sid x else x).map (·.id))
      = l.map (·.id) := by
  rw [List.map_map]
  apply List.map_congr_left
  intro x _
  by_cases hx : x.id = id <;> simp [hx, syncMark]

theorem filter_pair_len (rows : List RemoteRow) (uid lid : Nat)
    (h : (rows.map fun row => (row.userId, row.localId)).Nodup) :
    (rows.filter fun row => row.userId == uid && row.localId == lid).length
      ≤ 1 := by
  induction rows with
  | nil => simp
  | cons a rest ih =>
    rw [List.map_cons, List.nodup_cons] at h
    by_cases ha : (a.userId == uid && a.localId == lid) = true
    · rw [List.filter_cons, if_pos ha]
      have hnone :
          (rest.filter fun row => row.userId == uid && row.localId == lid)
            = [] := by
        rw [List.filter_eq_nil_iff]
        intro x hx hpx
        apply h.1
        rw [Bool.and_eq_true, beq_iff_eq, beq_iff_eq] at ha hpx
        rw [List.mem_map]
        exact ⟨x, hx, by rw [hpx.1, hpx.2, ha.1, ha.2]⟩
      rw [hnone]
      simp
    · rw [List.filter_cons, if_neg ha]
      exact ih h.2

theorem filter_pair_singleton (rows : List RemoteRow) (uid lid : Nat)
    (hnodup : (rows.map fun row => (row.userId, row.localId)).Nodup)
    (hany : (rows.any fun row => row.userId == uid && row.localId == lid)
      = true) :
    ∃ ρ, (rows.filter fun row => row.userId == uid && row.localId == lid)
      = [ρ] := by
  have hlen := filter_pair_len rows uid lid hnodup
  rcases hf : rows.filter fun row => row.userId == uid && row.localId == lid
    with _ | ⟨ρ, rest⟩
  · rw [List.any_eq_true] at hany
    obtain ⟨x, hx, hpx⟩ := hany
    have hxm : x ∈ rows.filter
        fun row => row.userId == uid && row.localId == lid :=
      List.mem_filter.mpr ⟨hx, hpx⟩
    rw [hf] at hxm
    exact absurd hxm (List.not_mem_nil x)
  · rw [hf] at hlen
    simp only [List.length_cons] at hlen
    have hrest : rest = [] := List.length_eq_zero.mp (by omega)
    rw [hrest] at hf
    exact ⟨ρ, hf⟩

/-! ## C4: insert-conflict recovery -/

/-- C4: during push, an unsynced record with no remoteRef whose remote
insert fails with the recognized uniqueness violation on
`(owner, localRef)` triggers the recovery lookup for the matching row `ρ`.
When the lookup succeeds, the record is marked synced with `ρ.id` and the
remote store is left unchanged — no duplicate row for that `localRef`, so a
record whose earlier insert succeeded without an observed acknowledgment
converges to the same remote row.  When the lookup itself fails, local and
remote state are both left unchanged: the record stays unsynced and no
remote id is invented.  Exactly one remote write (the rejected insert) is
attempted either way. -/
theorem C4_conflict_recovery (env : Env) (uid : Nat) (s : Sys) (t : LocalTx)
    (ρ : RemoteRow) (hsid : t.supabaseId = none)
    (hins : env.failInsert t.id = false)
    (hmem : t.id ∈ localIdsOf s.ldb)
    (hρ : (s.rdb.rows.filter fun row =>
      row.userId == uid && row.localId == t.id) = [ρ]) :
    (env.failSelect t.id = false →
      syncItem env uid s t =
        ({ ldb := { s.ldb with store := s.ldb.store.map fun x =>
              if x.id = t.id then syncMark s.ldb.now ρ.id x else x },
           rdb := s.rdb }, 1)) ∧
    (env.failSelect t.id = true → syncItem env uid s t = (s, 1)) := by
  have hany : (s.rdb.rows.any fun row =>
      row.userId == uid && row.localId == t.id) = true := by
    rw [List.any_eq_true]
    have hρm : ρ ∈ s.rdb.rows.filter fun row =>
        row.userId == uid && row.localId == t.id := by
      rw [hρ]
      simp
    exact ⟨ρ, (List.mem_filter.mp hρm).1, (List.mem_filter.mp hρm).2⟩
  constructor <;> intro hsel <;>
    simp only [syncItem, hsid, syncItemIns, hins, hany, hsel,
      Bool.false_eq_true, if_false, if_true, hρ,
      markAsSynced_ok s.ldb t.id ρ.id ((mem_ids_any s.ldb t.id).mp hmem)]

/-- The record of the C4 witness: unsynced, no remoteRef. -/
def c4tx : LocalTx :=
  { id := 1, subcategoryId := 2, amount := 7, occurredAt := "2025-03-04",
    notes := none, createdAt := 0, updatedAt := 0, syncedToSupabase := false,
    supabaseId := none }

/-- The pre-existing remote row of the C4 witness (from an earlier insert
whose acknowledgment was lost). -/
def c4row : RemoteRow :=
  { id := 7, userId := 1, localId := 1, subcategoryId := 2, amount := 7,
    occurredAt := "2025-03-04", notes := none }

/-- System state of the C4 witness. -/
def c4sys : Sys :=
  { ldb := { store := [c4tx], nextId := 2, now := 5 },
    rdb := { rows := [c4row], nextId := 8 } }

/-- Witness for C4 at a concrete conflicted state. -/
theorem C4_conflict_recovery_witness :
    ((okEnv (some 1) true).failSelect c4tx.id = false →
      syncItem (okEnv (some 1) true) 1 c4sys c4tx =
        ({ ldb := { c4sys.ldb with store := c4sys.ldb.store.map fun x =>
              if x.id = c4tx.id then syncMark c4sys.ldb.now c4row.id x else x },
           rdb := c4sys.rdb }, 1)) ∧
    ((okEnv (some 1) true).failSelect c4tx.id = true →
      syncItem (okEnv (some 1) true) 1 c4sys c4tx = (c4sys, 1)) :=
  C4_conflict_recovery (okEnv (some 1) true) 1 c4sys c4tx c4row
    (by decide) (by decide) (by decide) (by decide)

/-! ## C5: edit re-push -/

/-- C5: any user mutation through `updateLocalTransaction` resets `synced`
to `false` (whatever it was before) while leaving `supabaseId` untouched;
and the push step for a record that already has a (truthy) remoteRef issues
a remote update keyed by that remoteRef — not an insert: the remote row
count is unchanged — and on success restores `synced = true` with the same
`supabaseId`. -/
theorem C5_edit_repush (db : LocalDB) (id : Nat) (u : UserUpdates)
    (db' : LocalDB) (hupd : updateLocalTransaction db id u = .ok db')
    (env : Env) (uid : Nat) (s : Sys) (t : LocalTx) (sid : Nat)
    (hsid : t.supabaseId = some sid) (hsid0 : sid ≠ 0)
    (hmem : t.id ∈ localIdsOf s.ldb)
    (hfail : env.failUpdate t.id = false) :
    (db'.store = db.store.map fun x =>
      if x.id = id then
        { x with
            subcategoryId := u.subcategoryId.getD x.subcategoryId
            amount := u.amount.getD x.amount
            occurredAt := u.occurredAt.getD x.occurredAt
            notes := (u.notes.map some).getD x.notes
            syncedToSupabase := false
            updatedAt := db.now }
      else x) ∧
    (syncItem env uid s t =
      ({ ldb := { s.ldb with store := s.ldb.store.map fun x =>
            if x.id = t.id then syncMark s.ldb.now sid x else x },
         rdb := applyRemoteUpdate uid sid t s.rdb }, 1)) ∧
    (applyRemoteUpdate uid sid t s.rdb).rows.length = s.rdb.rows.length := by
  refine ⟨?_, ?_, ?_⟩
  · rw [updateLocalTransaction, updateTransaction] at hupd
    split_ifs at hupd
    injection hupd with h'
    subst h'
    rfl
  · simp only [syncItem, hsid, syncItemUpd, hfail, Bool.false_eq_true,
      if_false, if_pos (by simpa using hsid0 : (sid != 0) = true),
      markAsSynced_ok s.ldb t.id sid ((mem_ids_any s.ldb t.id).mp hmem)]
  · rw [applyRemoteUpdate]
    simp

/-- The previously synced record of the C5 witness. -/
def c5tx : LocalTx :=
  { id := 1, subcategoryId := 2, amount := 7, occurredAt := "2025-03-04",
    notes := none, createdAt := 0, updatedAt := 0, syncedToSupabase := true,
    supabaseId := some 7 }

/-- The local store of the C5 witness before the edit. -/
def c5db : LocalDB := { store := [c5tx], nextId := 2, now := 9 }

/-- The local store of the C5 witness after `updateLocalTransaction`
changed `amount` to 42. -/
def c5db' : LocalDB :=
  { store := [{ c5tx with
                  amount := 42
                  syncedToSupabase := false
                  updatedAt := 9 }],
    nextId := 2, now := 9 }

/-- The edited record as the next push sees it. -/
def c5txEdited : LocalTx :=
  { c5tx with amount := 42, syncedToSupabase := false, updatedAt := 9 }

/-- System state of the C5 witness when the next push runs. -/
def c5sys : Sys :=
  { ldb := c5db',
    rdb := { rows := [{ id := 7, userId := 1, localId := 1,
                        subcategoryId := 2, amount := 7,
                        occurredAt := "2025-03-04", notes := none }],
             nextId := 8 } }

/-- Witness for C5: editing `amount` on the previously synced record resets
the flag, and the next push step updates remote row 7 in place. -/
theorem C5_edit_repush_witness :
    (c5db'.store = c5db.store.map fun x =>
      if x.id = 1 then
        { x with
            subcategoryId := (Option.none).getD x.subcategoryId
            amount := (some (42 : Int)).getD x.amount
            occurredAt := (Option.none).getD x.occurredAt
            notes := ((Option.none).map some).getD x.notes
            syncedToSupabase := false
            updatedAt := c5db.now }
      else x) ∧
    (syncItem (okEnv (some 1) true) 1 c5sys c5txEdited =
      ({ ldb := { c5sys.ldb with store := c5sys.ldb.store.map fun x =>
            if x.id = c5txEdited.id then syncMark c5sys.ldb.now 7 x else x },
         rdb := applyRemoteUpdate 1 7 c5txEdited c5sys.rdb }, 1)) ∧
    (applyRemoteUpdate 1 7 c5txEdited c5sys.rdb).rows.length
      = c5sys.rdb.rows.length :=
  C5_edit_repush c5db 1 { amount := some 42 } c5db' (by decide)
    (okEnv (some 1) true) 1 c5sys c5txEdited 7 (by decide) (by decide)
    (by decide) (by decide)

/-! ## C10: pull imports under fresh client ids -/

/-- All record ids are below the freshness counter: the invariant standing
for `crypto.randomUUID()` never colliding with an existing id. -/
def FreshIds (db : LocalDB) : Prop := ∀ x ∈ db.store, x.id < db.nextId

theorem contains_iff (l : List Nat) (a : Nat) : l.contains a = true ↔ a ∈ l := by
  constructor
  · intro h
    exact List.elem_iff.mp h
  · intro h
    exact List.elem_iff.mpr h

theorem contains_false_iff (l : List Nat) (a : Nat) :
    l.contains a = false ↔ a ∉ l := by
  rw [← Bool.not_eq_true, contains_iff]

theorem fresh_any_eq_false (db : LocalDB) (h : FreshIds db) :
    (db.store.any fun x => x.id == db.nextId) = false := by
  rw [← Bool.not_eq_true, List.any_eq_true]
  rintro ⟨x, hx, hxe⟩
  have := h x hx
  rw [beq_iff_eq] at hxe
  omega

/-- The record `addTransaction` creates for an imported remote row. -/
def pullNewRec (db : LocalDB) (r : RemoteRow) : LocalTx :=
  { id := db.nextId, subcategoryId := r.subcategoryId, amount := r.amount,
    occurredAt := r.occurredAt, notes := r.notes, createdAt := db.now,
    updatedAt := db.now, syncedToSupabase := false, supabaseId := none }

/-- The imported record after the immediate `markAsSynced`. -/
def pullImportRec (db : LocalDB) (r : RemoteRow) : LocalTx :=
  { id := db.nextId, subcategoryId := r.subcategoryId, amount := r.amount,
    occurredAt := r.occurredAt, notes := r.notes, createdAt := db.now,
    updatedAt := db.now, syncedToSupabase := true, supabaseId := some r.id }

theorem addTransaction_fresh (db : LocalDB) (r : RemoteRow) (h : FreshIds db) :
    addTransaction db r.subcategoryId r.amount r.occurredAt r.notes =
      .ok (pullNewRec db r,
        { store := db.store ++ [pullNewRec db r], nextId := db.nextId + 1,
          now := db.now }) := by
  rw [addTransaction, if_neg (by simp [fresh_any_eq_false db h])]
  rfl

theorem markAsSynced_pullNew (db : LocalDB) (r : RemoteRow) (h : FreshIds db) :
    markAsSynced
        { store := db.store ++ [pullNewRec db r], nextId := db.nextId + 1,
          now := db.now } (pullNewRec db r).id r.id =
      .ok { store := db.store ++ [pullImportRec db r],
            nextId := db.nextId + 1, now := db.now } := by
  have hany2 : ((db.store ++ [pullNewRec db r]).any
      fun t => t.id == (pullNewRec db r).id) = true := by
    rw [List.any_append]
    simp
  rw [markAsSynced_ok _ _ _ hany2]
  have hstore : ((db.store ++ [pullNewRec db r]).map fun t =>
      if t.id = (pullNewRec db r).id then syncMark db.now r.id t else t)
      = db.store ++ [pullImportRec db r] := by
    rw [List.map_append,
      map_markIf_eq_self db.store _ _ _
        (by simpa [pullNewRec] using fresh_any_eq_false db h)]
    simp [pullNewRec, pullImportRec, syncMark]
  simp only [hstore]

/-- C10: a remote row `r` imported by pull creates the new local record
under the freshly generated client id — not under `r`'s `localRef` — marks
it synced with `r.id`, and afterwards the skip test of a subsequent pull
recognizes `r` through the stored remoteRef linkage (`r.id` is now in the
`supabaseIds` set) and not through the local ids (`r.localId` is still not
a local id). -/
theorem C10_pull_import_fresh_id (uid : Nat) (s : Sys) (r : RemoteRow)
    (localIds supaIds : List Nat)
    (hskip : (localIds.contains r.localId || supaIds.contains r.id) = false)
    (hfresh : FreshIds s.ldb)
    (hrl : r.localId ≠ s.ldb.nextId)
    (hr0 : r.id ≠ 0)
    (hnotin : (localIdsOf s.ldb).contains r.localId = false) :
    pullLoop uid localIds supaIds [r] s 0 =
      ({ s with ldb := { store := s.ldb.store ++ [pullImportRec s.ldb r],
                         nextId := s.ldb.nextId + 1, now := s.ldb.now } }, 1) ∧
    (pullImportRec s.ldb r).id ≠ r.localId ∧
    (pullImportRec s.ldb r).syncedToSupabase = true ∧
    (pullImportRec s.ldb r).supabaseId = some r.id ∧
    r.id ∈ supaIdsOf { store := s.ldb.store ++ [pullImportRec s.ldb r],
                       nextId := s.ldb.nextId + 1, now := s.ldb.now } ∧
    r.localId ∉ localIdsOf { store := s.ldb.store ++ [pullImportRec s.ldb r],
                             nextId := s.ldb.nextId + 1, now := s.ldb.now } := by
  refine ⟨?_, by simp [pullImportRec]; omega, rfl, rfl, ?_, ?_⟩
  · simp only [pullLoop, hskip, Bool.false_eq_true, if_false,
      addTransaction_fresh s.ldb r hfresh, markAsSynced_pullNew s.ldb r hfresh]
  · rw [supaIdsOf]
    show r.id ∈ ((s.ldb.store ++ [pullImportRec s.ldb r]).filterMap
      (·.supabaseId)).filter (· != 0)
    rw [List.mem_filter, List.filterMap_append]
    constructor
    · apply List.mem_append_right
      simp [pullImportRec]
    · simpa using hr0
  · have hnot : r.localId ∉ localIdsOf s.ldb :=
      (contains_false_iff _ _).mp hnotin
    rw [localIdsOf]
    show r.localId ∉ (s.ldb.store ++ [pullImportRec s.ldb r]).map (·.id)
    rw [List.map_append, List.mem_append]
    rintro (hl | hr)
    · exact hnot hl
    · simp [pullImportRec] at hr
      exact hrl hr

/-- The remote row of the C10 witness (created by another device with its
own record id 50). -/
def c10row : RemoteRow :=
  { id := 7, userId := 1, localId := 50, subcategoryId := 2, amount := 7,
    occurredAt := "2025-03-04", notes := none }

/-- System state of the C10 witness: an empty local store. -/
def c10sys : Sys :=
  { ldb := { store := [], nextId := 3, now := 5 },
    rdb := { rows := [c10row], nextId := 8 } }

/-- Witness for C10 at a concrete import. -/
theorem C10_pull_import_fresh_id_witness :
    pullLoop 1 (localIdsOf c10sys.ldb) (supaIdsOf c10sys.ldb) [c10row]
        c10sys 0 =
      ({ c10sys with
          ldb := { store := c10sys.ldb.store ++ [pullImportRec c10sys.ldb c10row],
                   nextId := c10sys.ldb.nextId + 1, now := c10sys.ldb.now } },
        1) ∧
    (pullImportRec c10sys.ldb c10row).id ≠ c10row.localId ∧
    (pullImportRec c10sys.ldb c10row).syncedToSupabase = true ∧
    (pullImportRec c10sys.ldb c10row).supabaseId = some c10row.id ∧
    c10row.id ∈ supaIdsOf
      { store := c10sys.ldb.store ++ [pullImportRec c10sys.ldb c10row],
        nextId := c10sys.ldb.nextId + 1, now := c10sys.ldb.now } ∧
    c10row.localId ∉ localIdsOf
      { store := c10sys.ldb.store ++ [pullImportRec c10sys.ldb c10row],
        nextId := c10sys.ldb.nextId + 1, now := c10sys.ldb.now } :=
  C10_pull_import_fresh_id 1 c10sys c10row (localIdsOf c10sys.ldb)
    (supaIdsOf c10sys.ldb) (by decide) (fun x hx => by cases hx) (by decide)
    (by decide) (by decide)

/-! ## C3: idempotence of push and pull -/

theorem okEnv_failInsert (u : Option Nat) (o : Bool) (i : Nat) :
    (okEnv u o).failInsert i = false := rfl

theorem okEnv_failUpdate (u : Option Nat) (o : Bool) (i : Nat) :
    (okEnv u o).failUpdate i = false := rfl

theorem okEnv_failSelect (u : Option Nat) (o : Bool) (i : Nat) :
    (okEnv u o).failSelect i = false := rfl

/-- The remote uniqueness constraint on `(user_id, local_id)`. -/
def remotePairsNodup (r : RemoteDB) : Prop :=
  (r.rows.map fun row => (row.userId, row.localId)).Nodup

theorem pairs_applyRemoteUpdate (uid sid : Nat) (t : LocalTx) (r : RemoteDB) :
    ((applyRemoteUpdate uid sid t r).rows.map
        fun row => (row.userId, row.localId))
      = r.rows.map fun row => (row.userId, row.localId) := by
  simp only [applyRemoteUpdate]
  rw [List.map_map]
  apply List.map_congr_left
  intro row _
  by_cases hc : row.id = sid ∧ row.userId = uid <;> simp [hc]

theorem syncItemIns_okEnv (uid : Nat) (s : Sys) (t : LocalTx)
    (hpairs : remotePairsNodup s.rdb)
    (hany : (s.ldb.store.any fun x => x.id == t.id) = true) :
    ∃ sid,
      (syncItemIns (okEnv (some uid) true) uid s t).ldb =
        { s.ldb with store := s.ldb.store.map fun x =>
            if x.id = t.id then syncMark s.ldb.now sid x else x } ∧
      remotePairsNodup (syncItemIns (okEnv (some uid) true) uid s t).rdb := by
  by_cases hdup : (s.rdb.rows.any fun row =>
      row.userId == uid && row.localId == t.id) = true
  · obtain ⟨ρ, hρ⟩ := filter_pair_singleton s.rdb.rows uid t.id hpairs hdup
    refine ⟨ρ.id, ?_, ?_⟩ <;>
      simp only [syncItemIns, okEnv_failInsert, Bool.false_eq_true, if_false,
        hdup, if_true, okEnv_failSelect, hρ,
        markAsSynced_ok s.ldb t.id ρ.id hany]
    exact hpairs
  · have hdupf : (s.rdb.rows.any fun row =>
        row.userId == uid && row.localId == t.id) = false := by
      rwa [← Bool.not_eq_true]
    refine ⟨s.rdb.nextId, ?_, ?_⟩ <;>
      simp only [syncItemIns, okEnv_failInsert, Bool.false_eq_true, if_false,
        hdupf, markAsSynced_ok s.ldb t.id s.rdb.nextId hany]
    simp only [remotePairsNodup]
    rw [List.map_append, List.nodup_append]
    refine ⟨hpairs, by simp, ?_⟩
    intro a ha hb
    simp only [List.map_cons, List.map_nil, List.mem_singleton] at hb
    obtain ⟨row, hrow, hpa⟩ := List.mem_map.mp ha
    rw [hb] at hpa
    rw [← Bool.not_eq_true, List.any_eq_true] at hdupf
    apply hdupf
    refine ⟨row, hrow, ?_⟩
    rw [Prod.ext_iff] at hpa
    simp only [Bool.and_eq_true, beq_iff_eq]
    exact ⟨hpa.1, hpa.2⟩

theorem syncItem_okEnv (uid : Nat) (s : Sys) (t : LocalTx)
    (hpairs : remotePairsNodup s.rdb)
    (hmem : t.id ∈ localIdsOf s.ldb) :
    ∃ sid,
      (syncItem (okEnv (some uid) true) uid s t).1.ldb =
        { s.ldb with store := s.ldb.store.map fun x =>
            if x.id = t.id then syncMark s.ldb.now sid x else x } ∧
      remotePairsNodup (syncItem (okEnv (some uid) true) uid s t).1.rdb := by
  have hanymem := (mem_ids_any s.ldb t.id).mp hmem
  rcases hts : t.supabaseId with _ | sid
  · have h := syncItemIns_okEnv uid s t hpairs hanymem
    simpa only [syncItem, hts] using h
  · by_cases hsid0 : sid = 0
    · subst hsid0
      have h := syncItemIns_okEnv uid s t hpairs hanymem
      simpa only [syncItem, hts, bne_self_eq_false, Bool.false_eq_true,
        if_false] using h
    · refine ⟨sid, ?_, ?_⟩ <;>
        simp only [syncItem, hts, if_pos (by simpa using hsid0 : (sid != 0) = true),
          syncItemUpd, okEnv_failUpdate, Bool.false_eq_true, if_false,
          markAsSynced_ok s.ldb t.id sid hanymem]
      rw [remotePairsNodup, pairs_applyRemoteUpdate]
      exact hpairs

/-- All records of the store are flagged synced. -/
def AllSynced (db : LocalDB) : Prop :=
  ∀ x ∈ db.store, x.syncedToSupabase = true

theorem pushLoop_okEnv (uid : Nat) (L : List LocalTx) :
    ∀ s w, remotePairsNodup s.rdb →
      (∀ t ∈ L, t.id ∈ localIdsOf s.ldb) →
      (∀ x ∈ s.ldb.store, x.syncedToSupabase = true ∨ x.id ∈ L.map (·.id)) →
      AllSynced (pushLoop (okEnv (some uid) true) uid L s w).1.ldb := by
  induction L with
  | nil =>
    intro s w _ _ hinv x hx
    exact (hinv x hx).resolve_right (by simp)
  | cons t L' ih =>
    intro s w hpairs hLmem hinv
    obtain ⟨sid, hldb, hpairs'⟩ :=
      syncItem_okEnv uid s t hpairs (hLmem t (by simp))
    simp only [pushLoop]
    apply ih
    · exact hpairs'
    · intro t' ht'
      show t'.id ∈ localIdsOf _
      rw [hldb]
      show t'.id ∈ (s.ldb.store.map fun x =>
        if x.id = t.id then syncMark s.ldb.now sid x else x).map (·.id)
      rw [idsOf_markIf]
      exact hLmem t' (List.mem_cons_of_mem _ ht')
    · intro x hx
      rw [hldb] at hx
      obtain ⟨x₀, hx₀, hxe⟩ := List.mem_map.mp hx
      by_cases hid : x₀.id = t.id
      · left
        rw [← hxe, if_pos hid]
        rfl
      · rw [← hxe, if_neg hid]
        rcases hinv x₀ hx₀ with h | h
        · exact Or.inl h
        · simp only [List.map_cons, List.mem_cons] at h
          rcases h with h | h
          · exact absurd h hid
          · exact Or.inr h

theorem unsynced_nil_of_allSynced (db : LocalDB) (h : AllSynced db) :
    getUnsyncedTransactions db = [] := by
  rw [getUnsyncedTransactions, List.filter_eq_nil_iff]
  intro x hx
  simp [h x hx]

theorem syncToSupabase_okEnv (uid : Nat) (s : Sys) :
    syncToSupabase (okEnv (some uid) true) s =
      pushLoop (okEnv (some uid) true) uid (getUnsyncedTransactions s.ldb)
        s 0 := rfl

theorem push_idem (uid : Nat) (s : Sys) (hpairs : remotePairsNodup s.rdb) :
    syncToSupabase (okEnv (some uid) true)
        ((syncToSupabase (okEnv (some uid) true) s).1) =
      ((syncToSupabase (okEnv (some uid) true) s).1, 0) := by
  have hall : AllSynced ((syncToSupabase (okEnv (some uid) true) s).1).ldb := by
    rw [syncToSupabase_okEnv]
    apply pushLoop_okEnv
    · exact hpairs
    · intro t ht
      exact List.mem_map.mpr
        ⟨t, (List.mem_filter.mp ht).1, rfl⟩
    · intro x hx
      by_cases hs : x.syncedToSupabase = true
      · exact Or.inl hs
      · refine Or.inr (List.mem_map.mpr ⟨x, ?_, rfl⟩)
        rw [getUnsyncedTransactions, List.mem_filter]
        exact ⟨hx, by simp [hs]⟩
  rw [syncToSupabase_okEnv uid ((syncToSupabase (okEnv (some uid) true) s).1),
    unsynced_nil_of_allSynced _ hall]
  rfl

/-- Remote row `r` is covered by the store: its `local_id` is a known local
id or its `id` is a known (truthy) `supabaseId` — the skip condition of the
pull loop. -/
def covers (db : LocalDB) (r : RemoteRow) : Prop :=
  r.localId ∈ localIdsOf db ∨ r.id ∈ supaIdsOf db

theorem covers_mono (db db' : LocalDB) (extra : List LocalTx)
    (h : db'.store = db.store ++ extra) (r : RemoteRow)
    (hc : covers db r) : covers db' r := by
  rcases hc with hc | hc
  · left
    rw [localIdsOf, h, List.map_append]
    exact List.mem_append_left _ hc
  · right
    rw [supaIdsOf, h, List.filterMap_append, List.filter_append]
    exact List.mem_append_left _ hc

theorem pullLoop_run (uid : Nat) (lids sids : List Nat) :
    ∀ (R : List RemoteRow), (∀ r ∈ R, r.id ≠ 0) →
    ∀ s n, FreshIds s.ldb →
      (∀ i, lids.contains i = true → i ∈ localIdsOf s.ldb) →
      (∀ i, sids.contains i = true → i ∈ supaIdsOf s.ldb) →
      (pullLoop uid lids sids R s n).1.rdb = s.rdb ∧
      (∃ extra, (pullLoop uid lids sids R s n).1.ldb.store
        = s.ldb.store ++ extra) ∧
      FreshIds (pullLoop uid lids sids R s n).1.ldb ∧
      (∀ r ∈ R, covers (pullLoop uid lids sids R s n).1.ldb r) := by
  intro R
  induction R with
  | nil =>
    intro _ s n hf _ _
    exact ⟨rfl, ⟨[], by simp [pullLoop]⟩, hf, by simp⟩
  | cons r R' ih =>
    intro hR0 s n hf hl hs
    by_cases hskip : (lids.contains r.localId || sids.contains r.id) = true
    · have hcov : covers s.ldb r := by
        rcases Bool.or_eq_true_iff.mp hskip with h | h
        · exact Or.inl (hl _ h)
        · exact Or.inr (hs _ h)
      simp only [pullLoop, hskip, if_true]
      obtain ⟨h1, ⟨extra, h2⟩, h4, h5⟩ :=
        ih (fun x hx => hR0 x (List.mem_cons_of_mem _ hx)) s n hf hl hs
      refine ⟨h1, ⟨extra, h2⟩, h4, ?_⟩
      intro r' hr'
      rcases List.mem_cons.mp hr' with hr' | hr'
      · subst hr'
        exact covers_mono s.ldb _ extra h2 r' hcov
      · exact h5 r' hr'
    · have hskipf : (lids.contains r.localId || sids.contains r.id) = false := by
        rwa [← Bool.not_eq_true]
      simp only [pullLoop, hskipf, Bool.false_eq_true, if_false,
        addTransaction_fresh s.ldb r hf, markAsSynced_pullNew s.ldb r hf]
      have hstep : ({ s with ldb :=
          { store := s.ldb.store ++ [pullImportRec s.ldb r],
            nextId := s.ldb.nextId + 1, now := s.ldb.now } } : Sys).ldb.store
          = s.ldb.store ++ [pullImportRec s.ldb r] := rfl
      have hf' : FreshIds ({ s with ldb :=
          { store := s.ldb.store ++ [pullImportRec s.ldb r],
            nextId := s.ldb.nextId + 1, now := s.ldb.now } } : Sys).ldb := by
        intro x hx
        rcases List.mem_append.mp hx with hx | hx
        · have := hf x hx
          show x.id < s.ldb.nextId + 1
          omega
        · rw [List.mem_singleton.mp hx]
          show s.ldb.nextId < s.ldb.nextId + 1
          omega
      have hl' : ∀ i, lids.contains i = true →
          i ∈ localIdsOf ({ s with ldb :=
            { store := s.ldb.store ++ [pullImportRec s.ldb r],
              nextId := s.ldb.nextId + 1, now := s.ldb.now } } : Sys).ldb := by
        intro i hi
        show i ∈ (s.ldb.store ++ [pullImportRec s.ldb r]).map (·.id)
        rw [List.map_append]
        exact List.mem_append_left _ (hl i hi)
      have hs' : ∀ i, sids.contains i = true →
          i ∈ supaIdsOf ({ s with ldb :=
            { store := s.ldb.store ++ [pullImportRec s.ldb r],
              nextId := s.ldb.nextId + 1, now := s.ldb.now } } : Sys).ldb := by
        intro i hi
        show i ∈ ((s.ldb.store ++ [pullImportRec s.ldb r]).filterMap
          (·.supabaseId)).filter (· != 0)
        rw [List.filterMap_append, List.filter_append]
        exact List.mem_append_left _ (hs i hi)
      obtain ⟨h1, ⟨extra, h2⟩, h4, h5⟩ :=
        ih (fun x hx => hR0 x (List.mem_cons_of_mem _ hx)) _ (n + 1) hf' hl' hs'
      refine ⟨h1, ⟨pullImportRec s.ldb r :: extra, by
        rw [h2, hstep, List.append_assoc]
        rfl⟩, h4, ?_⟩
      intro r' hr'
      rcases List.mem_cons.mp hr' with hr' | hr'
      · subst hr'
        refine covers_mono _ _ extra h2 r' (Or.inr ?_)
        show r'.id ∈ ((s.ldb.store ++ [pullImportRec s.ldb r']).filterMap
          (·.supabaseId)).filter (· != 0)
        rw [List.filterMap_append, List.filter_append]
        apply List.mem_append_right
        have : r'.id ≠ 0 := hR0 r' (by simp)
        simp [pullImportRec, this]
      · exact h5 r' hr'

theorem pullLoop_all_skip (uid : Nat) (lids sids : List Nat) :
    ∀ (R : List RemoteRow),
      (∀ r ∈ R, (lids.contains r.localId || sids.contains r.id) = true) →
      ∀ s n, pullLoop uid lids sids R s n = (s, n) := by
  intro R
  induction R with
  | nil => intro _ s n; rfl
  | cons r R' ih =>
    intro h s n
    simp only [pullLoop, h r (by simp), if_true]
    exact ih (fun r' hr' => h r' (List.mem_cons_of_mem _ hr')) s n

theorem pullFromSupabase_okEnv (uid : Nat) (s : Sys) :
    pullFromSupabase (okEnv (some uid) true) s =
      (if (s.rdb.rows.filter fun r => r.userId == uid).isEmpty then (s, 0)
       else pullLoop uid (localIdsOf s.ldb) (supaIdsOf s.ldb)
         (s.rdb.rows.filter fun r => r.userId == uid) s 0) := rfl

theorem pull_idem (uid : Nat) (s : Sys) (hfresh : FreshIds s.ldb)
    (hr0 : ∀ r ∈ s.rdb.rows, r.id ≠ 0) :
    pullFromSupabase (okEnv (some uid) true)
        ((pullFromSupabase (okEnv (some uid) true) s).1) =
      ((pullFromSupabase (okEnv (some uid) true) s).1, 0) := by
  rcases hE : (s.rdb.rows.filter fun r => r.userId == uid).isEmpty with _ | _
  · -- nonempty row set: the first pull runs the loop
    have hfirst : pullFromSupabase (okEnv (some uid) true) s =
        pullLoop uid (localIdsOf s.ldb) (supaIdsOf s.ldb)
          (s.rdb.rows.filter fun r => r.userId == uid) s 0 := by
      rw [pullFromSupabase_okEnv, hE]
      simp
    obtain ⟨h1, ⟨extra, h2⟩, h4, h5⟩ :=
      pullLoop_run uid (localIdsOf s.ldb) (supaIdsOf s.ldb)
        (s.rdb.rows.filter fun r => r.userId == uid)
        (fun x hx => hr0 x (List.mem_filter.mp hx).1) s 0 hfresh
        (fun i hi => (contains_iff _ _).mp hi)
        (fun i hi => (contains_iff _ _).mp hi)
    rw [hfirst]
    rw [pullFromSupabase_okEnv, h1, hE]
    simp only [Bool.false_eq_true, if_false]
    apply pullLoop_all_skip
    intro r hr
    rcases h5 r hr with hc | hc
    · rw [Bool.or_eq_true_iff]
      exact Or.inl ((contains_iff _ _).mpr hc)
    · rw [Bool.or_eq_true_iff]
      exact Or.inr ((contains_iff _ _).mpr hc)
  · -- no rows for this account: both pulls are no-ops
    have hfirst : pullFromSupabase (okEnv (some uid) true) s = (s, 0) := by
      rw [pullFromSupabase_okEnv, hE]
      simp
    rw [hfirst]
    rw [pullFromSupabase_okEnv, hE]
    simp

/-- C3: with a well-formed remote store (unique `(owner, localRef)` pairs,
nonzero server ids) and fresh local id generation, push and pull are both
idempotent: running push a second time with no intervening state change
returns the very same state and issues zero remote writes (it sees nothing
unsynced), and running pull a second time with no intervening remote change
adds zero local records and leaves the state unchanged.  This holds for
every connectivity/identity combination (offline or unauthenticated runs
are no-ops both times). -/
theorem C3_push_pull_idempotent (u : Option Nat) (o : Bool) (s : Sys)
    (hpairs : remotePairsNodup s.rdb) (hfresh : FreshIds s.ldb)
    (hr0 : ∀ r ∈ s.rdb.rows, r.id ≠ 0) :
    (syncToSupabase (okEnv u o) ((syncToSupabase (okEnv u o) s).1) =
      ((syncToSupabase (okEnv u o) s).1, 0)) ∧
    (pullFromSupabase (okEnv u o) ((pullFromSupabase (okEnv u o) s).1) =
      ((pullFromSupabase (okEnv u o) s).1, 0)) := by
  rcases u with _ | uid
  · exact ⟨rfl, rfl⟩
  · rcases o with _ | _
    · exact ⟨rfl, rfl⟩
    · exact ⟨push_idem uid s hpairs, pull_idem uid s hfresh hr0⟩

/-- The unsynced record of the C3 witness. -/
def c3tx : LocalTx :=
  { id := 1, subcategoryId := 2, amount := 7, occurredAt := "2025-03-04",
    notes := none, createdAt := 0, updatedAt := 0, syncedToSupabase := false,
    supabaseId := none }

/-- System state of the C3 witness: one unsynced record, one foreign remote
row. -/
def c3sys : Sys :=
  { ldb := { store := [c3tx], nextId := 2, now := 5 },
    rdb := { rows := [{ id := 7, userId := 1, localId := 50,
                        subcategoryId := 3, amount := 4,
                        occurredAt := "2025-02-01", notes := none }],
             nextId := 8 } }

/-- Witness for C3 at a concrete state, online and authenticated. -/
theorem C3_push_pull_idempotent_witness :
    (syncToSupabase (okEnv (some 1) true)
        ((syncToSupabase (okEnv (some 1) true) c3sys).1) =
      ((syncToSupabase (okEnv (some 1) true) c3sys).1, 0)) ∧
    (pullFromSupabase (okEnv (some 1) true)
        ((pullFromSupabase (okEnv (some 1) true) c3sys).1) =
      ((pullFromSupabase (okEnv (some 1) true) c3sys).1, 0)) :=
  C3_push_pull_idempotent (some 1) true c3sys
    (by unfold remotePairsNodup; decide)
    (by unfold FreshIds; decide) (by decide)

/-! ## C1: mutual exclusion of coordinator triggers -/

/-- The initial coordinator state of the C1 race scenario: idle, online,
three unsynced records. -/
def c1init : CoState :=
  { isSyncing := false, online := true, unsynced := 3, activePasses := 0 }

/-- C1: the busy-flag guard is not atomic on the timer path.  First
conjunct (the race): a timer tick passes its busy check, suspends on the
awaited status read, a manual `sync()` then starts a pass, and the resumed
timer callback — which does not re-check the flag — starts a second pass:
two passes touch the remote store concurrently (`activePasses` reaches 2).
Second conjunct (the guarded part): a trigger whose busy check runs while
the flag is set returns immediately, so the manual and online-event paths
alone never overlap. -/
theorem C1_mutual_exclusion_race :
    (runSched c1init [timerTickSegs, manualSyncSegs] [0, 1, 0]).2 = 2 ∧
    (runSched c1init [manualSyncSegs, onlineEvtSegs] [0, 1, 0, 0, 1]).2 = 1 := by
  decide

/-! ## C2: error handling and busy-flag release in the coordinator -/

/-- Environment of the C2 counterexample: authenticated, online, fault-free
except for a status subscriber that throws. -/
def c2envBad : Env := { okEnv (some 1) true with listenerThrows := true }

/-- An empty system state. -/
def c2sys : Sys :=
  { ldb := { store := [], nextId := 0, now := 0 },
    rdb := { rows := [], nextId := 1 } }

/-- C2 counterexample: the coordinator has no try/finally, so when the
status-notification step throws inside a manual `sync()` pass, the error
escapes the pass uncaught and the busy flag stays set — contradicting the
claimed guaranteed release on all exit paths. -/
theorem C2_busy_flag_counterexample :
    (mgrSync c2envBad { isSyncing := false, hasRunInitialSync := false }
      c2sys).1.isSyncing = true ∧
    (mgrSync c2envBad { isSyncing := false, hasRunInitialSync := false }
      c2sys).2.2 = true := by decide

/-- C2 amended: the push/pull procedures catch all their own errors (they
never throw), so every scheduled pass — initial, manual, timer, or
online-event — returns without an uncaught error and leaves the busy flag
as it found it (released when it started the pass) provided the
status-notification step (the `getSyncStatus` reads and the subscriber
callbacks) does not throw; the coordinator itself installs no catch or
finally around that step. -/
theorem C2_error_handling_amended (env : Env) (m : MgrState) (s : Sys)
    (h : notifyOk env = true) :
    ((mgrSync env m s).2.2 = false ∧
      (mgrSync env m s).1.isSyncing = m.isSyncing) ∧
    ((mgrRunInitialSync env m s).2.2 = false ∧
      (mgrRunInitialSync env m s).1.isSyncing = m.isSyncing) ∧
    ((mgrTimerTick env m s).2.2 = false ∧
      (mgrTimerTick env m s).1.isSyncing = m.isSyncing) ∧
    ((mgrHandleOnline env m s).2.2 = false ∧
      (mgrHandleOnline env m s).1.isSyncing = m.isSyncing) := by
  have h1 : env.failStatus = false := by
    rcases hb : env.failStatus with _ | _
    · rfl
    · rw [notifyOk, hb] at h
      simp at h
  have h2 : env.listenerThrows = false := by
    rcases hb : env.listenerThrows with _ | _
    · rfl
    · rw [notifyOk, hb] at h
      simp at h
  simp only [mgrSync, mgrRunInitialSync, mgrTimerTick, mgrHandleOnline,
    notifyOk, h1, h2]
  split_ifs <;> simp_all

/-- Witness for the amended C2 at a concrete fault-free input. -/
theorem C2_error_handling_amended_witness :
    ((mgrSync (okEnv (some 1) true) { isSyncing := false, hasRunInitialSync := false } c2sys).2.2 = false ∧
      (mgrSync (okEnv (some 1) true) { isSyncing := false, hasRunInitialSync := false } c2sys).1.isSyncing =
        ({ isSyncing := false, hasRunInitialSync := false } : MgrState).isSyncing) ∧
    ((mgrRunInitialSync (okEnv (some 1) true) { isSyncing := false, hasRunInitialSync := false } c2sys).2.2 = false ∧
      (mgrRunInitialSync (okEnv (some 1) true) { isSyncing := false, hasRunInitialSync := false } c2sys).1.isSyncing =
        ({ isSyncing := false, hasRunInitialSync := false } : MgrState).isSyncing) ∧
    ((mgrTimerTick (okEnv (some 1) true) { isSyncing := false, hasRunInitialSync := false } c2sys).2.2 = false ∧
      (mgrTimerTick (okEnv (some 1) true) { isSyncing := false, hasRunInitialSync := false } c2sys).1.isSyncing =
        ({ isSyncing := false, hasRunInitialSync := false } : MgrState).isSyncing) ∧
    ((mgrHandleOnline (okEnv (some 1) true) { isSyncing := false, hasRunInitialSync := false } c2sys).2.2 = false ∧
      (mgrHandleOnline (okEnv (some 1) true) { isSyncing := false, hasRunInitialSync := false } c2sys).1.isSyncing =
        ({ isSyncing := false, hasRunInitialSync := false } : MgrState).isSyncing) :=
  C2_error_handling_amended (okEnv (some 1) true)
    { isSyncing := false, hasRunInitialSync := false } c2sys (by decide)

/-! ## C6: the frame of markAsSynced -/

/-- The record of the C6 counterexample, with `updatedAt = 5`. -/
def c6tx : LocalTx :=
  { id := 1, subcategoryId := 2, amount := 7, occurredAt := "2025-03-04",
    notes := none, createdAt := 5, updatedAt := 5, syncedToSupabase := false,
    supabaseId := none }

/-- A store containing `c6tx` whose clock now reads 99. -/
def c6db : LocalDB := { store := [c6tx], nextId := 2, now := 99 }

/-- The store after `markAsSynced c6db 1 7`. -/
def c6db' : LocalDB :=
  { store := [{ c6tx with
                  syncedToSupabase := true
                  supabaseId := some 7
                  updatedAt := 99 }],
    nextId := 2, now := 99 }

/-- C6 counterexample: `markAsSynced` goes through `updateTransaction`,
which unconditionally refreshes `updatedAt` to `Date.now()`; here the
record's `updatedAt` changes from 5 to 99, contradicting the claim that it
is left unchanged. -/
theorem C6_markSynced_counterexample :
    markAsSynced c6db 1 7 = .ok c6db' ∧
    (c6db'.store.map (·.updatedAt) = [99]) ∧
    (c6db.store.map (·.updatedAt) = [5]) ∧ (99 : Nat) ≠ 5 := by decide

/-- C6 amended: `markAsSynced db id sid` (succeeding on a present id) sets
`syncedToSupabase := true` and `supabaseId := some sid` on the record with
that id and leaves `id`, `subcategoryId`, `amount`, `occurredAt`, `notes`
and `createdAt` unchanged, but refreshes `updatedAt` to the store clock;
records with other ids are untouched. -/
theorem C6_markSynced_amended (db : LocalDB) (id sid : Nat) (db' : LocalDB)
    (h : markAsSynced db id sid = .ok db') :
    db'.store = db.store.map (fun t =>
      if t.id = id then
        { t with
            syncedToSupabase := true
            supabaseId := some sid
            updatedAt := db.now }
      else t) ∧ db'.nextId = db.nextId ∧ db'.now = db.now := by
  rw [markAsSynced, updateTransaction] at h
  split_ifs at h with hc
  injection h with h'
  subst h'
  exact ⟨rfl, rfl, rfl⟩

/-- Witness for the amended C6 at the concrete counterexample store. -/
theorem C6_markSynced_amended_witness :
    c6db'.store = c6db.store.map (fun t =>
      if t.id = 1 then
        { t with
            syncedToSupabase := true
            supabaseId := some 7
            updatedAt := c6db.now }
      else t) ∧ c6db'.nextId = c6db.nextId ∧ c6db'.now = c6db.now :=
  C6_markSynced_amended c6db 1 7 c6db' (by decide)

/-! ## C7: local-first deletion -/

/-- The record of the C7 counterexample: it has a remoteRef
(`supabaseId = 7`) but was edited since its last sync
(`syncedToSupabase = false`). -/
def c7tx : LocalTx :=
  { id := 1, subcategoryId := 2, amount := 7, occurredAt := "2025-03-04",
    notes := none, createdAt := 0, updatedAt := 0, syncedToSupabase := false,
    supabaseId := some 7 }

/-- The remote row the counterexample record points to. -/
def c7row : RemoteRow :=
  { id := 7, userId := 1, localId := 1, subcategoryId := 2, amount := 7,
    occurredAt := "2025-03-04", notes := none }

/-- System state of the C7 counterexample. -/
def c7sys : Sys :=
  { ldb := { store := [c7tx], nextId := 2, now := 0 },
    rdb := { rows := [c7row], nextId := 8 } }

/-- C7 counterexample: online and authenticated, deleting the record with a
remoteRef removes it locally, but no remote delete is attempted (flag
`false`) and the remote row survives: the source guards the remote delete
on `syncedToSupabase && supabaseId`, not on the remoteRef alone as the
claim states. -/
theorem C7_delete_counterexample :
    deleteLocalTransaction (okEnv (some 1) true) c7sys 1 =
      .ok ({ ldb := { store := [], nextId := 2, now := 0 },
             rdb := { rows := [c7row], nextId := 8 } }, false) := by decide

/-- C7 amended: for every record found in the store, the delete succeeds
and removes it from the local store unconditionally; a remote delete is
attempted exactly when the record was marked synced AND carries a truthy
remoteRef AND a user id is available AND the device is online; and when the
attempted remote delete fails, the call still succeeds with the local
deletion intact and the remote store untouched (the failure is logged
only). -/
theorem C7_delete_amended (env : Env) (s : Sys) (id : Nat) (t : LocalTx)
    (hfind : s.ldb.store.find? (fun x => x.id == id) = some t) :
    deleteLocalTransaction env s id =
      .ok ({ ldb := deleteTransaction s.ldb id,
             rdb :=
               if t.syncedToSupabase && sidTruthy t.supabaseId &&
                   env.userId.isSome && env.online && ! env.failDelete then
                 applyRemoteDelete (env.userId.getD 0) (t.supabaseId.getD 0)
                   s.rdb
               else s.rdb },
        t.syncedToSupabase && sidTruthy t.supabaseId && env.userId.isSome &&
          env.online) := by
  rw [deleteLocalTransaction, hfind]
  rcases henv : env.userId with _ | uid <;>
    simp only [henv, Option.isSome_none, Option.isSome_some, Option.getD] <;>
    split_ifs <;>
    simp_all

/-- Witness for the amended C7: deleting a record that was synced and has a
truthy remoteRef, online and authenticated, attempts the remote delete. -/
theorem C7_delete_amended_witness :
    deleteLocalTransaction (okEnv (some 1) true)
        { ldb := { store := [{ c7tx with syncedToSupabase := true }],
                   nextId := 2, now := 0 },
          rdb := { rows := [c7row], nextId := 8 } } 1 =
      .ok ({ ldb := deleteTransaction
               { store := [{ c7tx with syncedToSupabase := true }],
                 nextId := 2, now := 0 } 1,
             rdb :=
               if ({ c7tx with syncedToSupabase := true } : LocalTx).syncedToSupabase &&
                   sidTruthy ({ c7tx with syncedToSupabase := true } : LocalTx).supabaseId &&
                   (okEnv (some 1) true).userId.isSome &&
                   (okEnv (some 1) true).online &&
                   ! (okEnv (some 1) true).failDelete then
                 applyRemoteDelete ((okEnv (some 1) true).userId.getD 0)
                   (({ c7tx with syncedToSupabase := true } : LocalTx).supabaseId.getD 0)
                   { rows := [c7row], nextId := 8 }
               else { rows := [c7row], nextId := 8 } },
        ({ c7tx with syncedToSupabase := true } : LocalTx).syncedToSupabase &&
          sidTruthy ({ c7tx with syncedToSupabase := true } : LocalTx).supabaseId &&
          (okEnv (some 1) true).userId.isSome && (okEnv (some 1) true).online) :=
  C7_delete_amended (okEnv (some 1) true)
    { ldb := { store := [{ c7tx with syncedToSupabase := true }],
               nextId := 2, now := 0 },
      rdb := { rows := [c7row], nextId := 8 } } 1
    { c7tx with syncedToSupabase := true } (by decide)

/-! ## C9: the local-date parse/format pair -/

theorem natDigits_bounds (n : Nat) :
    ∀ c ∈ natDigits n, 48 ≤ c.toNat ∧ c.toNat ≤ 57 := by
  induction n using Nat.strong_induction_on with
  | _ n ih =>
    intro c hc
    by_cases hn : n < 10
    · rw [natDigits_small hn] at hc
      simp only [List.mem_singleton] at hc
      subst hc
      rw [digitChar_toNat n hn]
      omega
    · rw [natDigits_step (by omega)] at hc
      rw [List.mem_append] at hc
      rcases hc with hc | hc
      · exact ih (n / 10) (Nat.div_lt_self (by omega) (by omega)) c hc
      · simp only [List.mem_singleton] at hc
        subst hc
        rw [digitChar_toNat_mod]
        omega

theorem natDigits_ne_nil (n : Nat) : natDigits n ≠ [] := by
  by_cases hn : n < 10
  · rw [natDigits_small hn]
    simp
  · rw [natDigits_step (by omega)]
    simp

theorem digitsVal_append (l : List Char) (c : Char) :
    digitsVal (l ++ [c]) = 10 * digitsVal l + (c.toNat - 48) := by
  rw [digitsVal, List.foldl_append]
  rfl

theorem digitsVal_natDigits (n : Nat) : digitsVal (natDigits n) = n := by
  induction n using Nat.strong_induction_on with
  | _ n ih =>
    by_cases hn : n < 10
    · rw [natDigits_small hn, digitsVal, List.foldl_cons, List.foldl_nil,
        digitChar_toNat n hn]
      omega
    · rw [natDigits_step (by omega), digitsVal_append,
        ih (n / 10) (Nat.div_lt_self (by omega) (by omega)), digitChar_toNat_mod]
      omega

theorem jsNumber_natDigits (n : Nat) : jsNumber (natDigits n) = some (n : Int) := by
  have h₁ : (natDigits n).isEmpty = false := by
    rcases h : natDigits n with _ | _
    · exact absurd h (natDigits_ne_nil n)
    · rfl
  have h₂ : ((natDigits n).all fun ch => 48 ≤ ch.toNat && ch.toNat ≤ 57) = true := by
    rw [List.all_eq_true]
    intro c hc
    have hb := natDigits_bounds n c hc
    simp only [Bool.and_eq_true, decide_eq_true_eq]
    exact hb
  rw [jsNumber, h₁, h₂]
  simp [digitsVal_natDigits]

theorem jsNumber_pad2 {m : Nat} (h : m ≤ 99) :
    jsNumber (pad2 m) = some (m : Int) := by
  rw [pad2_eq h, jsNumber]
  rw [if_neg (by simp)]
  rw [if_pos (by
    simp only [List.all_cons, List.all_nil, Bool.and_eq_true,
      decide_eq_true_eq, digitChar_toNat_mod, Bool.and_true]
    omega)]
  simp only [digitsVal, List.foldl_cons, List.foldl_nil, digitChar_toNat_mod]
  congr 1
  omega

theorem splitOnChar_no_split (c : Char) (l : List Char)
    (h : ∀ a ∈ l, a ≠ c) : splitOnChar c l = [l] := by
  induction l with
  | nil => rfl
  | cons a rest ih =>
    rw [splitOnChar, if_neg (h a (by simp)), ih (fun x hx => h x (by simp [hx]))]

theorem splitOnChar_append (c : Char) (l₁ l₂ : List Char)
    (h : ∀ a ∈ l₁, a ≠ c) :
    splitOnChar c (l₁ ++ c :: l₂) = l₁ :: splitOnChar c l₂ := by
  induction l₁ with
  | nil => simp [splitOnChar]
  | cons a rest ih =>
    rw [List.cons_append, splitOnChar, if_neg (h a (by simp)),
      ih (fun x hx => h x (by simp [hx]))]

theorem natDigits_no_dash (n : Nat) : ∀ a ∈ natDigits n, a ≠ '-' := by
  intro a ha he
  have hb := natDigits_bounds n a ha
  rw [he] at hb
  have : ('-').toNat = 45 := rfl
  omega

theorem pad2_no_dash (m : Nat) : ∀ a ∈ pad2 m, a ≠ '-' := by
  intro a ha
  rw [pad2, padStart, List.mem_append] at ha
  rcases ha with ha | ha
  · rw [List.eq_of_mem_replicate ha]
    decide
  · exact natDigits_no_dash m a ha

theorem splitOnChar_dateKey (y m d : Nat) :
    splitOnChar '-' (dateKey y m d).data = [natDigits y, pad2 m, pad2 d] := by
  rw [dateKey_data]
  simp only [List.append_assoc, List.cons_append]
  rw [splitOnChar_append '-' (natDigits y) _ (natDigits_no_dash y),
    splitOnChar_append '-' (pad2 m) _ (pad2_no_dash m),
    splitOnChar_no_split '-' (pad2 d) (pad2_no_dash d)]

theorem isLeapZ_cast (y : Nat) : isLeapZ (y : Int) = isLeap y := by
  have h4 : ((y : Int) % 4 = 0) ↔ (y % 4 = 0) := by omega
  have h100 : ((y : Int) % 100 = 0) ↔ (y % 100 = 0) := by omega
  have h400 : ((y : Int) % 400 = 0) ↔ (y % 400 = 0) := by omega
  rw [isLeapZ, isLeap, Bool.eq_iff_iff]
  simp only [Bool.or_eq_true, Bool.and_eq_true, bne_iff_ne, ne_eq, beq_iff_eq]
  rw [h4, h100, h400]

theorem daysInMonthZ_cast (y m : Nat) (h1 : 1 ≤ m) (h2 : m ≤ 12) :
    daysInMonthZ (y : Int) ((m : Int) - 1) = (daysInMonth y m : Int) := by
  interval_cases m <;>
    simp [daysInMonthZ, daysInMonth, isLeapZ_cast]

theorem newDateLocal_inRange (y m d : Nat) (hy : 100 ≤ y) (hm : 1 ≤ m)
    (hm' : m ≤ 12) (hd : 1 ≤ d) (hd' : d ≤ daysInMonth y m) :
    newDateLocal (y : Int) ((m : Int) - 1) (d : Int) =
      ⟨(y : Int), (m : Int) - 1, (d : Int)⟩ := by
  have hq : ¬ (0 ≤ (y : Int) ∧ (y : Int) ≤ 99) := by omega
  have hf : Int.fdiv ((m : Int) - 1) 12 = 0 := by
    rw [Int.fdiv_eq_ediv _ (by norm_num)]
    exact Int.ediv_eq_zero_of_lt (by omega) (by omega)
  have he : Int.emod ((m : Int) - 1) 12 = (m : Int) - 1 :=
    Int.emod_eq_of_lt (by omega) (by omega)
  simp only [newDateLocal, normMonth, if_neg hq, hf, he, add_zero]
  have hfuel : ((d : Int).natAbs + 2) = (d + 1) + 1 := by simp
  rw [hfuel, rollDays, if_neg (by omega : ¬ (d : Int) < 1),
    daysInMonthZ_cast y m hm hm',
    if_neg (by
      have : d ≤ daysInMonth y m := hd'
      omega : ¬ ((daysInMonth y m : Int) < (d : Int)))]

theorem parseLocalDate_dateKey (y m d : Nat) (hy : 100 ≤ y) (hm : 1 ≤ m)
    (hm' : m ≤ 12) (hd : 1 ≤ d) (hd' : d ≤ daysInMonth y m) :
    parseLocalDate (dateKey y m d) =
      some ⟨(y : Int), (m : Int) - 1, (d : Int)⟩ := by
  have hd99 : d ≤ 99 := le_trans hd' (le_trans (daysInMonth_le y m) (by omega))
  rw [parseLocalDate, splitOnChar_dateKey]
  simp only [List.map_cons, List.map_nil, jsNumber_natDigits,
    jsNumber_pad2 (show m ≤ 99 by omega), jsNumber_pad2 hd99]
  rw [newDateLocal_inRange y m d hy hm hm' hd hd']

theorem intDigits_natCast (n : Nat) : intDigits (n : Int) = natDigits n := by
  rw [intDigits, if_neg (by omega : ¬ (n : Int) < 0), Int.toNat_natCast]

theorem pad2Z_natCast (n : Nat) : pad2Z (n : Int) = pad2 n := by
  rw [pad2Z, intDigits_natCast, pad2]

theorem formatLocalDate_cast (y m d : Nat) :
    formatLocalDate ⟨(y : Int), (m : Int) - 1, (d : Int)⟩ = dateKey y m d := by
  show (⟨intDigits (y : Int) ++ '-' :: pad2Z (((m : Int) - 1) + 1) ++
    '-' :: pad2Z (d : Int)⟩ : String) = _
  rw [show ((m : Int) - 1) + 1 = (m : Int) by ring, intDigits_natCast,
    pad2Z_natCast, pad2Z_natCast, dateKey]

/-- C9 (amended): for every zero-padded `YYYY-MM-DD` string with a 4-digit
year from 1000 to 9999 and in-range month and day, the local parse/format
pair is a roundtrip: `parseLocalDate` constructs the date directly from the
three numeric components (local time, never a UTC-assuming parser) and
`formatLocalDate` inverts it.  (For years below 1000 the roundtrip fails:
the formatter does not zero-pad the year, and the constructor shifts years
0–99 to 1900–1999.) -/
theorem C9_date_roundtrip_amended (y m d : Nat) (hy : 1000 ≤ y)
    (hy' : y ≤ 9999) (hm : 1 ≤ m) (hm' : m ≤ 12) (hd : 1 ≤ d)
    (hd' : d ≤ daysInMonth y m) :
    (parseLocalDate (dateKey y m d)).map formatLocalDate =
      some (dateKey y m d) := by
  rw [parseLocalDate_dateKey y m d (by omega) hm hm' hd hd']
  rw [Option.map_some']
  rw [formatLocalDate_cast]

/-- C9 counterexample: `"0925-03-04"` is a zero-padded `YYYY-MM-DD` string
denoting a valid calendar date, but the roundtrip returns `"925-03-04"`:
`formatLocalDate` renders `getFullYear()` without zero padding. -/
theorem C9_date_roundtrip_counterexample :
    (parseLocalDate "0925-03-04").map formatLocalDate = some "925-03-04" ∧
    ("925-03-04" : String) ≠ "0925-03-04" := by decide

/-- Witness for the amended C9 at `2025-03-04`. -/
theorem C9_date_roundtrip_amended_witness :
    (parseLocalDate (dateKey 2025 3 4)).map formatLocalDate =
      some (dateKey 2025 3 4) :=
  C9_date_roundtrip_amended 2025 3 4 (by decide) (by decide) (by decide)
    (by decide) (by decide) (by decide)

end TxTracker
